import Mathlib

/-!
Shallow embedding of the ray-casting engine of this repository
(src/Character.h together with its driver src/Main.cpp).

Modelling conventions:
* IEEE `double`/`float` arithmetic is idealised as exact real arithmetic (`ℝ`).
* C++ `double → int` conversion truncates toward zero (`cppTrunc`); `std::round`
  rounds halves away from zero (`cppRound`); `%` on `int` is the C truncated
  remainder (`Int.tmod`).
* `worldMap[y][x]` with an out-of-range index is undefined behaviour in the
  C++ source; the model reads `0` (empty) there, see `cell`.
* Lean's `x / 0 = 0` convention stands in for IEEE `inf`/`NaN` in the two
  places the source divides before testing for zero (`32.0f / std::abs(r)`
  when `r == 0`, and `2 * i / double(screenWidth)` when `screenWidth == 0`);
  in both cases the C++ program only uses the quotient when the divisor is
  nonzero, except for the degenerate `screenWidth == 0` call which the
  theorems below exclude.
* The unbounded `while (!hit)` loop of `Character::calcRays` is modelled by
  structural recursion on an explicit step budget (`fuel`); `none` means the
  budget was exhausted before a hit was found.
-/

namespace RayCasting

open scoped Classical

/-- C++ `std::round`: nearest integer, halves rounded away from zero. -/
noncomputable def cppRound (x : ℝ) : ℤ :=
  if 0 ≤ x then ⌊x + 1 / 2⌋ else ⌈x - 1 / 2⌉

/-- C++ floating-to-integral conversion: truncation toward zero. -/
noncomputable def cppTrunc (x : ℝ) : ℤ :=
  if 0 ≤ x then ⌊x⌋ else ⌈x⌉

/-- `hitDetails::Alignment` from src/Character.h. -/
inductive Alignment
  | horizontal
  | vertical
  | unknown
  deriving DecidableEq, Repr

/-- `struct hitDetails` from src/Character.h (field `color` is the wall
material code, named after the source). -/
structure HitDetails where
  distance : ℝ := 0
  color : ℤ := 0
  alignment : Alignment := Alignment.unknown

instance : Inhabited HitDetails := ⟨{}⟩

/-- The world map: `std::vector<std::vector<int>>`. -/
abbrev Grid := List (List ℤ)

/-- `worldMap[y][x]`; an out-of-range access (undefined behaviour in C++) is
modelled as reading `0`. -/
def cell (worldMap : Grid) (y x : ℤ) : ℤ :=
  if 0 ≤ y ∧ 0 ≤ x then (worldMap.getD y.toNat []).getD x.toNat 0 else 0

/-- `enum movementDirection` from src/Character.h. -/
inductive MovementDirection
  | UP
  | DOWN
  | LEFT
  | RIGHT
  deriving DecidableEq, Repr

/-- `static constexpr float MOVEMENT_SPEED{ 2.0f }`. -/
def movementSpeed : ℝ := 2

/-- The state of `class Character`: the character circle's position
(`charObject`), its radius, the center cached in `center`, the direction and
camera-plane vectors, and the four stored draw vertices
(`directionRay[0..1]`, `cameraPlane[0..1]`). -/
structure Character where
  characterRadius : ℝ
  objX : ℝ
  objY : ℝ
  cx : ℝ
  cy : ℝ
  dirX : ℝ
  dirY : ℝ
  cameraPlaneX : ℝ
  cameraPlaneY : ℝ
  dr0x : ℝ
  dr0y : ℝ
  dr1x : ℝ
  dr1y : ℝ
  cp0x : ℝ
  cp0y : ℝ
  cp1x : ℝ
  cp1y : ℝ

/-- `Character::getCharacterCenter`. -/
def getCharacterCenter (c : Character) : ℝ × ℝ :=
  (c.objX + c.characterRadius, c.objY + c.characterRadius)

/-- The `Character` constructor (the sfml circle is created at position
`(0, 0)`; `size` is stored as the radius). -/
def mkCharacter (size dirX dirY cameraPlaneX cameraPlaneY : ℝ) : Character :=
  let objX : ℝ := 0
  let objY : ℝ := 0
  let centerX := objX + size
  let centerY := objY + size
  let rayEndX := centerX + dirX
  let rayEndY := centerY + dirY
  { characterRadius := size
    objX := objX, objY := objY
    cx := centerX, cy := centerY
    dirX := dirX, dirY := dirY
    cameraPlaneX := cameraPlaneX, cameraPlaneY := cameraPlaneY
    dr0x := centerX, dr0y := centerY
    dr1x := rayEndX, dr1y := rayEndY
    cp0x := rayEndX - cameraPlaneX, cp0y := rayEndY - cameraPlaneY
    cp1x := rayEndX + cameraPlaneX, cp1y := rayEndY + cameraPlaneY }

/-- `Character::rotate`: rotate the direction vector and the camera plane by
`spinDir * 0.01` radians and refresh the stored draw vertices. -/
noncomputable def rotate (dir : MovementDirection) (c : Character) : Character :=
  let spinDir : ℝ := if dir = MovementDirection.LEFT then -1 else 1
  let co := Real.cos (spinDir * 0.01)
  let si := Real.sin (spinDir * 0.01)
  let dirX' := c.dirX * co - c.dirY * si
  let dirY' := c.dirX * si + c.dirY * co
  let cen := getCharacterCenter c
  let rayEndX := cen.1 + dirX'
  let rayEndY := cen.2 + dirY'
  let planeX' := c.cameraPlaneX * co - c.cameraPlaneY * si
  let planeY' := c.cameraPlaneX * si + c.cameraPlaneY * co
  { c with
    dirX := dirX', dirY := dirY'
    dr0x := cen.1, dr0y := cen.2
    dr1x := rayEndX, dr1y := rayEndY
    cameraPlaneX := planeX', cameraPlaneY := planeY'
    cp0x := rayEndX, cp0y := rayEndY
    cp1x := rayEndX + planeX', cp1y := rayEndY + planeY' }

/-- `Character::updateMovement`: shift the circle, the cached center and all
four stored draw vertices by the movement speed along one cardinal axis. -/
def updateMovement (direction : MovementDirection) (c : Character) : Character :=
  let adj : ℝ × ℝ :=
    match direction with
    | MovementDirection.LEFT => (-movementSpeed, 0)
    | MovementDirection.RIGHT => (movementSpeed, 0)
    | MovementDirection.UP => (0, -movementSpeed)
    | MovementDirection.DOWN => (0, movementSpeed)
  { c with
    objX := c.objX + adj.1, objY := c.objY + adj.2
    cx := c.cx + adj.1, cy := c.cy + adj.2
    cp0x := c.cp0x + adj.1, cp0y := c.cp0y + adj.2
    cp1x := c.cp1x + adj.1, cp1y := c.cp1y + adj.2
    dr0x := c.dr0x + adj.1, dr0y := c.dr0y + adj.2
    dr1x := c.dr1x + adj.1, dr1y := c.dr1y + adj.2 }

/-- `Character::calcNewDistance`: distance along the ray to the next grid
line on one axis, as a fraction of the per-axis step distance `deltaDist`.
`BLOCK_WIDTH` is `32`. -/
noncomputable def calcNewDistance (vertex : ℤ) (rayDir deltaDist : ℝ) : ℝ :=
  let distance0 : ℝ := ((vertex.tmod 32 : ℤ) : ℝ)
  let distance : ℝ :=
    if rayDir < 0 ∧ distance0 = 0 then 32
    else if 0 ≤ rayDir then
      (if 32 - distance0 = 0 then 32 else 32 - distance0)
    else distance0
  distance / 32 * deltaDist

/-- `Character::checkForHit`: classify the position `(xIndex, yIndex)` (in
cell units) against the world map, returning the C++ `bool` result together
with the (possibly updated) `hitDetails` out-parameter. -/
noncomputable def checkForHit (xIndex yIndex : ℝ) (hitDetail : HitDetails)
    (worldMap : Grid) : Bool × HitDetails :=
  if (⌊xIndex⌋ : ℝ) = xIndex ∧ (⌊yIndex⌋ : ℝ) = yIndex then
    -- double intersection (a lattice corner)
    let x := cppTrunc xIndex
    let y := cppTrunc yIndex
    if cell worldMap y x ≠ 0 then
      (true, { hitDetail with color := cell worldMap y x })
    else if cell worldMap (y - 1) (x - 1) ≠ 0 then
      (true, { hitDetail with color := cell worldMap (y - 1) (x - 1) })
    else if cell worldMap y (x - 1) ≠ 0 then
      (true, { hitDetail with color := cell worldMap y (x - 1) })
    else if cell worldMap (y - 1) x ≠ 0 then
      (true, { hitDetail with color := cell worldMap (y - 1) x })
    else (false, hitDetail)
  else if (⌊xIndex⌋ : ℝ) = xIndex then
    let x := cppTrunc xIndex
    let y := ⌊yIndex⌋
    if cell worldMap y x ≠ 0 ∨ cell worldMap y (x - 1) ≠ 0 then
      (true,
        { hitDetail with
          alignment := Alignment.vertical
          color :=
            if cell worldMap y x ≠ 0 then cell worldMap y x
            else cell worldMap y (x - 1) })
    else (false, hitDetail)
  else if (⌊yIndex⌋ : ℝ) = yIndex then
    let y := cppTrunc yIndex
    let x := ⌊xIndex⌋
    if cell worldMap y x ≠ 0 ∨ cell worldMap (y - 1) x ≠ 0 then
      (true,
        { hitDetail with
          alignment := Alignment.horizontal
          color :=
            if cell worldMap y x ≠ 0 then cell worldMap y x
            else cell worldMap (y - 1) x })
    else (false, hitDetail)
  else (false, hitDetail)

/-- `hypoLength` from `Character::calcRays`. -/
noncomputable def hypoLength (rayDirX rayDirY : ℝ) : ℝ :=
  Real.sqrt (rayDirX * rayDirX + rayDirY * rayDirY)

/-- The per-axis step distance before the sign adjustment:
`(rayDir == 0) ? 1e30 : (32.0f / std::abs(rayDir)) * hypoLength`. -/
noncomputable def deltaDistRaw (rayDir hypo : ℝ) : ℝ :=
  if rayDir = 0 then 1e30 else 32 / |rayDir| * hypo

/-- The per-axis step distance after the sign adjustment (negative direction
gives a negative step distance). -/
noncomputable def deltaDistSigned (rayDir hypo : ℝ) : ℝ :=
  if rayDir < 0 then deltaDistRaw rayDir hypo * (-1) else deltaDistRaw rayDir hypo

/-- The initial side distance of `Character::calcRays`
(`rayDir < 0 ? ((center % 32) / 32) * deltaDist : ((32 - center % 32) / 32) * deltaDist`). -/
noncomputable def initialSideDist (mapStart : ℤ) (rayDir deltaDist : ℝ) : ℝ :=
  if rayDir < 0 then ((mapStart.tmod 32 : ℤ) : ℝ) / 32 * deltaDist
  else ((32 - mapStart.tmod 32 : ℤ) : ℝ) / 32 * deltaDist

/-- `(std::abs(sideDistX) <= std::abs(sideDistY)) ? sideDistX : sideDistY`:
the signed distance to the nearer grid-line crossing. -/
noncomputable def chooseAdjustment (sideDistX sideDistY : ℝ) : ℝ :=
  if |sideDistX| ≤ |sideDistY| then sideDistX else sideDistY

/-- `double signOperator = deltaDist > 0 ? 1 : -1`. -/
noncomputable def signOperator (deltaDist : ℝ) : ℝ :=
  if 0 < deltaDist then 1 else -1

/-- `std::round(std::abs((adjustmentDistance / deltaDist) * 32) * signOperator)`:
the integer advance of one map coordinate in one loop iteration. -/
noncomputable def adjustmentFor (adjustmentDistance deltaDist : ℝ) : ℤ :=
  cppRound (|adjustmentDistance / deltaDist * 32| * signOperator deltaDist)

/-- The `while (!hit)` traversal loop of `Character::calcRays`, with an
explicit step budget. Returns the hit details (without the final distance,
which the source fills in after the loop) and the final `(mapX, mapY)`. -/
noncomputable def castLoop (worldMap : Grid) (rayDirX rayDirY deltaDistX deltaDistY : ℝ) :
    ℕ → ℤ → ℤ → ℝ → ℝ → HitDetails → Option (HitDetails × ℤ × ℤ)
  | 0, _, _, _, _, _ => none
  | fuel + 1, mapX, mapY, sideDistX, sideDistY, temp =>
    let adjustmentDistance := chooseAdjustment sideDistX sideDistY
    let mapX' := mapX + adjustmentFor adjustmentDistance deltaDistX
    let mapY' := mapY + adjustmentFor adjustmentDistance deltaDistY
    let sideDistX' := calcNewDistance mapX' rayDirX deltaDistX
    let sideDistY' := calcNewDistance mapY' rayDirY deltaDistY
    let res := checkForHit ((mapX' : ℝ) / 32) ((mapY' : ℝ) / 32) temp worldMap
    if res.1 then some (res.2, mapX', mapY')
    else castLoop worldMap rayDirX rayDirY deltaDistX deltaDistY fuel mapX' mapY'
      sideDistX' sideDistY' res.2

/-- One iteration of the `for (double i = 0; i <= screenWidth; ++i)` loop of
`Character::calcRays`, up to (but not including) the
previous-column-alignment fix-up: ray setup, traversal, and the final
Euclidean-distance computation. -/
noncomputable def castColumn (c : Character) (worldMap : Grid)
    (screenWidth i fuel : ℕ) : Option (HitDetails × ℤ × ℤ) :=
  let mapX0 : ℤ := cppTrunc c.cx
  let mapY0 : ℤ := cppTrunc c.cy
  let cameraX : ℝ := 2 * i / screenWidth - 1
  let rayDirX := c.dirX + c.cameraPlaneX * cameraX
  let rayDirY := c.dirY + c.cameraPlaneY * cameraX
  let hypo := hypoLength rayDirX rayDirY
  let deltaDistX := deltaDistSigned rayDirX hypo
  let deltaDistY := deltaDistSigned rayDirY hypo
  let sideDistX := initialSideDist mapX0 rayDirX deltaDistX
  let sideDistY := initialSideDist mapY0 rayDirY deltaDistY
  (castLoop worldMap rayDirX rayDirY deltaDistX deltaDistY fuel mapX0 mapY0
      sideDistX sideDistY {}).map
    (fun r =>
      ({ r.1 with
         distance :=
           Real.sqrt ((c.cx - (r.2.1 : ℝ)) * (c.cx - (r.2.1 : ℝ)) +
             (c.cy - (r.2.2 : ℝ)) * (c.cy - (r.2.2 : ℝ))) },
        r.2.1, r.2.2))

/-- The remaining columns of `Character::calcRays`, accumulating `hits` and
`rayCasts` in column order and applying the previous-column alignment
inheritance (`if (i && hit && temp.alignment == temp.unknown)`). -/
noncomputable def calcRaysFrom (c : Character) (worldMap : Grid)
    (screenWidth fuel : ℕ) :
    ℕ → ℕ → List HitDetails → List (ℤ × ℤ) →
      Option (List HitDetails × List (ℤ × ℤ))
  | 0, _, hits, rayCasts => some (hits, rayCasts)
  | r + 1, i, hits, rayCasts =>
    match castColumn c worldMap screenWidth i fuel with
    | none => none
    | some (hd, mapX, mapY) =>
      let hd' :=
        if i ≠ 0 ∧ hd.alignment = Alignment.unknown then
          { hd with alignment := (hits.getD (i - 1) {}).alignment }
        else hd
      calcRaysFrom c worldMap screenWidth fuel r (i + 1) (hits ++ [hd'])
        (rayCasts ++ [(mapX, mapY)])

/-- `Character::calcRays`: one `HitResult` and one ray-cast end point per
column index `i ∈ [0, screenWidth]`, or `none` when some column's traversal
loop does not find a hit within `fuel` steps. -/
noncomputable def calcRays (c : Character) (worldMap : Grid)
    (screenWidth fuel : ℕ) : Option (List HitDetails × List (ℤ × ℤ)) :=
  calcRaysFrom c worldMap screenWidth fuel (screenWidth + 1) 0 [] []

/-- A whole sequence of `Character::rotate` calls. -/
noncomputable def rotateAll (l : List MovementDirection) (c : Character) : Character :=
  l.foldl (fun s d => rotate d s) c

/-- The four cells around the grid position `(y, x)` that `checkForHit` may
consult, in the source's priority order. -/
def cornerCells (y x : ℤ) : List (ℤ × ℤ) :=
  [(y, x), (y - 1, x - 1), (y, x - 1), (y - 1, x)]

/-- A 4×3-cell world with a solid border and one extra wall at cell
`(1, 2)`. -/
def mapA : Grid := [[1, 1, 1, 1], [1, 0, 1, 1], [1, 1, 1, 1]]

/-- A viewpoint at `(80, 48)` looking along `(-1, 0)` with a degenerate
(zero-width) camera plane. -/
def charA : Character :=
  { characterRadius := 16, objX := 64, objY := 32, cx := 80, cy := 48
    dirX := -1, dirY := 0, cameraPlaneX := 0, cameraPlaneY := 0
    dr0x := 0, dr0y := 0, dr1x := 0, dr1y := 0
    cp0x := 0, cp0y := 0, cp1x := 0, cp1y := 0 }

/-- The two hit results of the scenario-A run. -/
def hitsA : List HitDetails :=
  [{ distance := 16, color := 1, alignment := Alignment.vertical },
   { distance := 16, color := 1, alignment := Alignment.vertical }]

/-- The two ray-cast end points of the scenario-A run. -/
def castsA : List (ℤ × ℤ) := [(64, 48), (64, 48)]

/-- Scenario B: the same world, with the viewpoint standing exactly on the
vertical grid line `x = 64`, right at the edge of the wall cell `(1, 2)`. -/
def charB : Character :=
  { charA with cx := 64 }

/-- The three hit results of the scenario-B run: distance `0` everywhere. -/
def hitsB : List HitDetails :=
  [{ distance := 0, color := 1, alignment := Alignment.vertical },
   { distance := 0, color := 1, alignment := Alignment.vertical },
   { distance := 0, color := 1, alignment := Alignment.vertical }]

/-- The three ray-cast end points of the scenario-B run. -/
def castsB : List (ℤ × ℤ) := [(64, 48), (64, 48), (64, 48)]

/-- Scenario C: a 4×4-cell world whose cell `(2, 2)` is a wall, probed by a
ray that lands exactly on the lattice corner `(64, 64)`. -/
def mapC : Grid := [[1, 1, 1, 1], [1, 0, 0, 1], [1, 0, 1, 1], [1, 1, 1, 1]]

/-- The scenario-C viewpoint: `(80, 64)` looking along `(-1, 0)`. -/
def charC : Character :=
  { charA with cy := 64 }

/-- The two hit results of the scenario-C run: both corner hits with
orientation `unknown` (column 1 inherits column 0's `unknown`). -/
def hitsC : List HitDetails :=
  [{ distance := 16, color := 1, alignment := Alignment.unknown },
   { distance := 16, color := 1, alignment := Alignment.unknown }]

/-- The two ray-cast end points of the scenario-C run. -/
def castsC : List (ℤ × ℤ) := [(64, 64), (64, 64)]

/-- The per-axis loop invariant: the side distance is `d/32` of the step
distance, the position lies in the pixel box `[32, hi]`, and the next grid
line in the direction of travel (at distance `d`) also lies in the box. -/
def AxisOk (r : ℝ) (hi pos d : ℤ) : Prop :=
  0 ≤ d ∧ d ≤ 32 ∧ 32 ≤ pos ∧ pos ≤ hi ∧
    (0 ≤ r → (pos + d) % 32 = 0 ∧ 1 ≤ d ∧ pos + d ≤ hi) ∧
    (r < 0 → (pos - d) % 32 = 0 ∧ 32 ≤ pos - d)

/-- Pixels left to travel before the ray must have struck the border. -/
noncomputable def axisMeasure (r : ℝ) (hi pos : ℤ) : ℤ :=
  if 0 ≤ r then hi - pos else pos - 32

/-! ### Basic facts about the rounding and remainder helpers -/

lemma cppTrunc_of_nonneg {x : ℝ} (h : 0 ≤ x) : cppTrunc x = ⌊x⌋ := by
  simp [cppTrunc, h]

lemma cppTrunc_eq_floor {x : ℝ} (h : (⌊x⌋ : ℝ) = x) : cppTrunc x = ⌊x⌋ := by
  unfold cppTrunc
  rcases le_or_lt 0 x with h0 | h0
  · simp [h0]
  · rw [if_neg (not_le.mpr h0), ← h, Int.ceil_intCast, Int.floor_intCast]

lemma cppRound_intCast (n : ℤ) : cppRound (n : ℝ) = n := by
  unfold cppRound
  rcases le_or_lt 0 (n : ℝ) with h0 | h0
  · rw [if_pos h0, Int.floor_eq_iff]
    constructor <;> [push_cast; push_cast] <;> linarith
  · rw [if_neg (not_le.mpr h0), Int.ceil_eq_iff]
    constructor <;> [push_cast; push_cast] <;> linarith

lemma tmod32_nonneg {a : ℤ} (ha : 0 ≤ a) : 0 ≤ a.tmod 32 := by
  rw [Int.tmod_eq_emod ha (by norm_num)]
  exact Int.emod_nonneg a (by norm_num)

lemma tmod32_lt {a : ℤ} (ha : 0 ≤ a) : a.tmod 32 < 32 := by
  rw [Int.tmod_eq_emod ha (by norm_num)]
  exact Int.emod_lt_of_pos a (by norm_num)

/-! ### C9: `calcNewDistance` on a nonnegative coordinate -/

/-- For a nonnegative coordinate the numerator chosen by `calcNewDistance` is
an integer cell-fraction `d ∈ [1, 32]`, and the step lands on a grid line in
the direction of travel. -/
lemma calcNewDistance_eq (vertex : ℤ) (hv : 0 ≤ vertex) (rayDir deltaDist : ℝ) :
    ∃ d : ℤ, 1 ≤ d ∧ d ≤ 32 ∧
      calcNewDistance vertex rayDir deltaDist = (d : ℝ) / 32 * deltaDist ∧
      (0 ≤ rayDir → (vertex + d) % 32 = 0) ∧
      (rayDir < 0 → (vertex - d) % 32 = 0) := by
  have hm : vertex.tmod 32 = vertex % 32 := Int.tmod_eq_emod hv (by norm_num)
  have hm0 : 0 ≤ vertex.tmod 32 := tmod32_nonneg hv
  have hm32 : vertex.tmod 32 < 32 := tmod32_lt hv
  simp only [calcNewDistance]
  by_cases hneg : rayDir < 0
  · by_cases hz : ((vertex.tmod 32 : ℤ) : ℝ) = 0
    · refine ⟨32, by norm_num, by norm_num, ?_, ?_, ?_⟩
      · rw [if_pos ⟨hneg, hz⟩]; norm_num
      · intro h0; exact absurd hneg (not_lt.mpr h0)
      · intro _
        have h1 : vertex.tmod 32 = 0 := by exact_mod_cast hz
        omega
    · have hz' : vertex.tmod 32 ≠ 0 := fun h => hz (by exact_mod_cast h)
      refine ⟨vertex.tmod 32, by omega, by omega, ?_, ?_, ?_⟩
      · rw [if_neg (fun h => hz h.2), if_neg (not_le.mpr hneg)]
      · intro h0; exact absurd hneg (not_lt.mpr h0)
      · intro _; omega
  · have h0 : 0 ≤ rayDir := not_lt.mp hneg
    have hne : ¬(32 - ((vertex.tmod 32 : ℤ) : ℝ) = 0) := by
      intro h
      have h1 : ((vertex.tmod 32 : ℤ) : ℝ) = 32 := by linarith
      have h2 : vertex.tmod 32 = 32 := by exact_mod_cast h1
      omega
    refine ⟨32 - vertex.tmod 32, by omega, by omega, ?_, ?_, ?_⟩
    · rw [if_neg (fun h => absurd h.1 hneg), if_pos h0, if_neg hne]
      push_cast; ring
    · intro _; omega
    · intro hc; exact absurd hc (not_lt.mpr h0)

/-- C9: for every nonnegative integer coordinate and every nonzero step
distance, `calcNewDistance` is nonzero, has the sign of `deltaDist`, and its
magnitude is at most `|deltaDist|`. -/
theorem claim_C9 (vertex : ℤ) (rayDir deltaDist : ℝ)
    (hv : 0 ≤ vertex) (hΔ : deltaDist ≠ 0) :
    calcNewDistance vertex rayDir deltaDist ≠ 0 ∧
    (0 < calcNewDistance vertex rayDir deltaDist ↔ 0 < deltaDist) ∧
    |calcNewDistance vertex rayDir deltaDist| ≤ |deltaDist| := by
  obtain ⟨d, hd1, hd32, heq, -, -⟩ := calcNewDistance_eq vertex hv rayDir deltaDist
  have hdpos : (0 : ℝ) < (d : ℝ) / 32 := by
    apply div_pos _ (by norm_num)
    exact_mod_cast lt_of_lt_of_le zero_lt_one hd1
  have hdle : (d : ℝ) / 32 ≤ 1 := by
    rw [div_le_one (by norm_num)]
    exact_mod_cast hd32
  rw [heq]
  refine ⟨mul_ne_zero (ne_of_gt hdpos) hΔ, ?_, ?_⟩
  · constructor
    · intro h
      by_contra hc
      have : deltaDist < 0 := lt_of_le_of_ne (not_lt.mp hc) hΔ
      nlinarith
    · intro h; exact mul_pos hdpos h
  · rw [abs_mul, abs_of_pos hdpos]
    calc (d : ℝ) / 32 * |deltaDist| ≤ 1 * |deltaDist| := by
          apply mul_le_mul_of_nonneg_right hdle (abs_nonneg _)
      _ = |deltaDist| := one_mul _

/-- Witness for C9 at `vertex = 48`, `rayDir = -1`, `deltaDist = -32`. -/
theorem claim_C9_witness :
    (0 : ℤ) ≤ 48 ∧ (-32 : ℝ) ≠ 0 ∧
      (calcNewDistance 48 (-1) (-32) ≠ 0 ∧
        (0 < calcNewDistance 48 (-1) (-32) ↔ 0 < (-32 : ℝ)) ∧
        |calcNewDistance 48 (-1) (-32)| ≤ |(-32 : ℝ)|) :=
  ⟨by norm_num, by norm_num, claim_C9 48 (-1) (-32) (by norm_num) (by norm_num)⟩

/-! ### C4: the step-distance computation -/

lemma abs_le_hypoLength_left (a b : ℝ) : |a| ≤ hypoLength a b := by
  unfold hypoLength
  rw [show a * a + b * b = a ^ 2 + b ^ 2 by ring, ← Real.sqrt_sq_eq_abs]
  exact Real.sqrt_le_sqrt (by nlinarith)

lemma abs_le_hypoLength_right (a b : ℝ) : |b| ≤ hypoLength a b := by
  unfold hypoLength
  rw [show a * a + b * b = a ^ 2 + b ^ 2 by ring, ← Real.sqrt_sq_eq_abs]
  exact Real.sqrt_le_sqrt (by nlinarith)

lemma deltaDistRaw_pos {r hypo : ℝ} (hr : r ≠ 0) (hh : |r| ≤ hypo) :
    0 < deltaDistRaw r hypo := by
  unfold deltaDistRaw
  rw [if_neg hr]
  have h1 : 0 < |r| := abs_pos.mpr hr
  exact mul_pos (div_pos (by norm_num) h1) (lt_of_lt_of_le h1 hh)

lemma deltaDistSigned_neg_iff {r hypo : ℝ} (hh : |r| ≤ hypo) :
    deltaDistSigned r hypo < 0 ↔ r < 0 := by
  unfold deltaDistSigned
  by_cases hr : r < 0
  · rw [if_pos hr]
    have := deltaDistRaw_pos (ne_of_lt hr) hh
    constructor
    · intro _; exact hr
    · intro _; nlinarith
  · rw [if_neg hr]
    constructor
    · intro hlt
      by_cases hz : r = 0
      · exfalso
        unfold deltaDistRaw at hlt
        rw [if_pos hz] at hlt
        norm_num at hlt
      · exact absurd (deltaDistRaw_pos hz hh) (not_lt.mpr (le_of_lt hlt))
    · intro h; exact absurd h hr

/-- C4: a zero ray-direction component yields the `1e30` sentinel, and the
signed step distance is negative exactly when the component is negative. -/
theorem claim_C4 (rayDirX rayDirY : ℝ) :
    (rayDirX = 0 → deltaDistSigned rayDirX (hypoLength rayDirX rayDirY) = 1e30) ∧
    (rayDirY = 0 → deltaDistSigned rayDirY (hypoLength rayDirX rayDirY) = 1e30) ∧
    (deltaDistSigned rayDirX (hypoLength rayDirX rayDirY) < 0 ↔ rayDirX < 0) ∧
    (deltaDistSigned rayDirY (hypoLength rayDirX rayDirY) < 0 ↔ rayDirY < 0) := by
  refine ⟨?_, ?_, ?_, ?_⟩
  · intro h
    subst h
    unfold deltaDistSigned deltaDistRaw
    norm_num
  · intro h
    subst h
    unfold deltaDistSigned deltaDistRaw
    norm_num
  · exact deltaDistSigned_neg_iff (abs_le_hypoLength_left _ _)
  · exact deltaDistSigned_neg_iff (abs_le_hypoLength_right _ _)

/-- Witness for C4: the sentinel case at `rayDirX = 0` and the sign case at
`rayDirX = -3, rayDirY = 4`. -/
theorem claim_C4_witness :
    deltaDistSigned 0 (hypoLength 0 4) = 1e30 ∧
      deltaDistSigned (-3) (hypoLength (-3) 4) < 0 :=
  ⟨(claim_C4 0 4).1 rfl, (claim_C4 (-3) 4).2.2.1.mpr (by norm_num)⟩

/-! ### C8: `updateMovement` translations -/

/-- C8: a `LEFT` step followed by a `RIGHT` step restores the position, and
every `updateMovement` call moves the center (and the circle) by exactly the
movement speed along the requested cardinal axis. -/
theorem claim_C8 (c : Character) :
    ((updateMovement MovementDirection.RIGHT
        (updateMovement MovementDirection.LEFT c)).cx = c.cx ∧
      (updateMovement MovementDirection.RIGHT
        (updateMovement MovementDirection.LEFT c)).cy = c.cy) ∧
    (∀ d : MovementDirection,
      (updateMovement d c).cx =
          c.cx + (if d = MovementDirection.LEFT then -movementSpeed
            else if d = MovementDirection.RIGHT then movementSpeed else 0) ∧
      (updateMovement d c).cy =
          c.cy + (if d = MovementDirection.UP then -movementSpeed
            else if d = MovementDirection.DOWN then movementSpeed else 0) ∧
      (updateMovement d c).objX =
          c.objX + (if d = MovementDirection.LEFT then -movementSpeed
            else if d = MovementDirection.RIGHT then movementSpeed else 0) ∧
      (updateMovement d c).objY =
          c.objY + (if d = MovementDirection.UP then -movementSpeed
            else if d = MovementDirection.DOWN then movementSpeed else 0)) := by
  constructor
  · constructor <;> simp [updateMovement]
  · intro d
    cases d <;> simp [updateMovement]

/-! ### C2: rotation preserves magnitudes and perpendicularity -/

lemma rotate_preserves (d : MovementDirection) (c : Character) :
    (rotate d c).dirX ^ 2 + (rotate d c).dirY ^ 2 = c.dirX ^ 2 + c.dirY ^ 2 ∧
    (rotate d c).cameraPlaneX ^ 2 + (rotate d c).cameraPlaneY ^ 2 =
      c.cameraPlaneX ^ 2 + c.cameraPlaneY ^ 2 ∧
    (rotate d c).dirX * (rotate d c).cameraPlaneX +
        (rotate d c).dirY * (rotate d c).cameraPlaneY =
      c.dirX * c.cameraPlaneX + c.dirY * c.cameraPlaneY := by
  have hpyth := Real.sin_sq_add_cos_sq ((if d = MovementDirection.LEFT then (-1 : ℝ) else 1) * 0.01)
  simp only [rotate]
  refine ⟨?_, ?_, ?_⟩
  · linear_combination (c.dirX ^ 2 + c.dirY ^ 2) * hpyth
  · linear_combination (c.cameraPlaneX ^ 2 + c.cameraPlaneY ^ 2) * hpyth
  · linear_combination (c.dirX * c.cameraPlaneX + c.dirY * c.cameraPlaneY) * hpyth

/-- C2: any sequence of `rotate` calls preserves the squared magnitudes of
the direction vector and the camera plane, and preserves their dot product;
in particular an initially perpendicular pair stays perpendicular. -/
lemma rotateAll_preserves (l : List MovementDirection) (c : Character) :
    ((rotateAll l c).dirX ^ 2 + (rotateAll l c).dirY ^ 2 =
        c.dirX ^ 2 + c.dirY ^ 2) ∧
    ((rotateAll l c).cameraPlaneX ^ 2 + (rotateAll l c).cameraPlaneY ^ 2 =
        c.cameraPlaneX ^ 2 + c.cameraPlaneY ^ 2) ∧
    ((rotateAll l c).dirX * (rotateAll l c).cameraPlaneX +
        (rotateAll l c).dirY * (rotateAll l c).cameraPlaneY =
      c.dirX * c.cameraPlaneX + c.dirY * c.cameraPlaneY) := by
  induction l generalizing c with
  | nil => exact ⟨rfl, rfl, rfl⟩
  | cons d l ih =>
    have hstep := rotate_preserves d c
    have hrec := ih (rotate d c)
    refine ⟨?_, ?_, ?_⟩
    · rw [show rotateAll (d :: l) c = rotateAll l (rotate d c) from rfl,
        hrec.1, hstep.1]
    · rw [show rotateAll (d :: l) c = rotateAll l (rotate d c) from rfl,
        hrec.2.1, hstep.2.1]
    · rw [show rotateAll (d :: l) c = rotateAll l (rotate d c) from rfl,
        hrec.2.2, hstep.2.2]

theorem claim_C2 (l : List MovementDirection) (c : Character)
    (hperp : c.dirX * c.cameraPlaneX + c.dirY * c.cameraPlaneY = 0) :
    (Real.sqrt ((rotateAll l c).dirX ^ 2 + (rotateAll l c).dirY ^ 2) =
        Real.sqrt (c.dirX ^ 2 + c.dirY ^ 2)) ∧
    (Real.sqrt ((rotateAll l c).cameraPlaneX ^ 2 + (rotateAll l c).cameraPlaneY ^ 2) =
        Real.sqrt (c.cameraPlaneX ^ 2 + c.cameraPlaneY ^ 2)) ∧
    ((rotateAll l c).dirX ^ 2 + (rotateAll l c).dirY ^ 2 =
        c.dirX ^ 2 + c.dirY ^ 2) ∧
    ((rotateAll l c).cameraPlaneX ^ 2 + (rotateAll l c).cameraPlaneY ^ 2 =
        c.cameraPlaneX ^ 2 + c.cameraPlaneY ^ 2) ∧
    ((rotateAll l c).dirX * (rotateAll l c).cameraPlaneX +
        (rotateAll l c).dirY * (rotateAll l c).cameraPlaneY = 0) := by
  obtain ⟨h1, h2, h3⟩ := rotateAll_preserves l c
  exact ⟨by rw [h1], by rw [h2], h1, h2, by rw [h3]; exact hperp⟩

/-- Witness for C2: the initial character of src/Main.cpp
(`Character(16.f, -16, 0, 0, 16, ...)`) rotated right then left. -/
theorem claim_C2_witness :
    ((mkCharacter 16 (-16) 0 0 16).dirX * (mkCharacter 16 (-16) 0 0 16).cameraPlaneX +
        (mkCharacter 16 (-16) 0 0 16).dirY * (mkCharacter 16 (-16) 0 0 16).cameraPlaneY = 0) ∧
    ((rotateAll [MovementDirection.RIGHT, MovementDirection.LEFT]
          (mkCharacter 16 (-16) 0 0 16)).dirX *
        (rotateAll [MovementDirection.RIGHT, MovementDirection.LEFT]
          (mkCharacter 16 (-16) 0 0 16)).cameraPlaneX +
      (rotateAll [MovementDirection.RIGHT, MovementDirection.LEFT]
          (mkCharacter 16 (-16) 0 0 16)).dirY *
        (rotateAll [MovementDirection.RIGHT, MovementDirection.LEFT]
          (mkCharacter 16 (-16) 0 0 16)).cameraPlaneY = 0) :=
  ⟨by simp [mkCharacter],
    (claim_C2 [MovementDirection.RIGHT, MovementDirection.LEFT]
      (mkCharacter 16 (-16) 0 0 16) (by simp [mkCharacter])).2.2.2.2⟩

/-! ### C10: `checkForHit` away from every grid line -/

lemma checkForHit_offgrid (xIndex yIndex : ℝ) (hd : HitDetails) (worldMap : Grid)
    (hx : (⌊xIndex⌋ : ℝ) ≠ xIndex) (hy : (⌊yIndex⌋ : ℝ) ≠ yIndex) :
    checkForHit xIndex yIndex hd worldMap = (false, hd) := by
  unfold checkForHit
  rw [if_neg (fun h => hx h.1), if_neg hx, if_neg hy]

/-- C10: when neither coordinate lies on a grid line, `checkForHit` reports
no hit and leaves the `hitDetails` out-parameter unchanged. -/
theorem claim_C10 (xIndex yIndex : ℝ) (hd : HitDetails) (worldMap : Grid)
    (hx : (⌊xIndex⌋ : ℝ) ≠ xIndex) (hy : (⌊yIndex⌋ : ℝ) ≠ yIndex) :
    checkForHit xIndex yIndex hd worldMap = (false, hd) :=
  checkForHit_offgrid xIndex yIndex hd worldMap hx hy

/-- Witness for C10 at the cell-interior point `(1/2, 1/2)`. -/
theorem claim_C10_witness :
    ((⌊(1/2 : ℝ)⌋ : ℝ) ≠ 1/2) ∧
      checkForHit (1/2) (1/2) {} [[1]] = (false, {}) :=
  ⟨by norm_num, claim_C10 (1/2) (1/2) {} [[1]] (by norm_num) (by norm_num)⟩

/-! ### C5: the `checkForHit` case analysis -/

lemma checkForHit_cases (xIndex yIndex : ℝ) (hd : HitDetails) (worldMap : Grid) :
    (((⌊xIndex⌋ : ℝ) = xIndex ∧ (⌊yIndex⌋ : ℝ) = yIndex) →
      (((checkForHit xIndex yIndex hd worldMap).1 = true ↔
        ([cell worldMap ⌊yIndex⌋ ⌊xIndex⌋,
          cell worldMap (⌊yIndex⌋ - 1) (⌊xIndex⌋ - 1),
          cell worldMap ⌊yIndex⌋ (⌊xIndex⌋ - 1),
          cell worldMap (⌊yIndex⌋ - 1) ⌊xIndex⌋].any (fun v => v ≠ 0)) = true) ∧
      ((checkForHit xIndex yIndex hd worldMap).1 = true →
        ([cell worldMap ⌊yIndex⌋ ⌊xIndex⌋,
          cell worldMap (⌊yIndex⌋ - 1) (⌊xIndex⌋ - 1),
          cell worldMap ⌊yIndex⌋ (⌊xIndex⌋ - 1),
          cell worldMap (⌊yIndex⌋ - 1) ⌊xIndex⌋].find? (fun v => v ≠ 0)) =
          some (checkForHit xIndex yIndex hd worldMap).2.color) ∧
      (checkForHit xIndex yIndex hd worldMap).2.alignment = hd.alignment)) ∧
    (((⌊xIndex⌋ : ℝ) = xIndex ∧ (⌊yIndex⌋ : ℝ) ≠ yIndex) →
      (((checkForHit xIndex yIndex hd worldMap).1 = true ↔
        (cell worldMap ⌊yIndex⌋ ⌊xIndex⌋ ≠ 0 ∨
          cell worldMap ⌊yIndex⌋ (⌊xIndex⌋ - 1) ≠ 0)) ∧
      ((checkForHit xIndex yIndex hd worldMap).1 = true →
        (checkForHit xIndex yIndex hd worldMap).2.alignment = Alignment.vertical ∧
        ([cell worldMap ⌊yIndex⌋ ⌊xIndex⌋,
          cell worldMap ⌊yIndex⌋ (⌊xIndex⌋ - 1)].find? (fun v => v ≠ 0)) =
          some (checkForHit xIndex yIndex hd worldMap).2.color))) ∧
    (((⌊xIndex⌋ : ℝ) ≠ xIndex ∧ (⌊yIndex⌋ : ℝ) = yIndex) →
      (((checkForHit xIndex yIndex hd worldMap).1 = true ↔
        (cell worldMap ⌊yIndex⌋ ⌊xIndex⌋ ≠ 0 ∨
          cell worldMap (⌊yIndex⌋ - 1) ⌊xIndex⌋ ≠ 0)) ∧
      ((checkForHit xIndex yIndex hd worldMap).1 = true →
        (checkForHit xIndex yIndex hd worldMap).2.alignment = Alignment.horizontal ∧
        ([cell worldMap ⌊yIndex⌋ ⌊xIndex⌋,
          cell worldMap (⌊yIndex⌋ - 1) ⌊xIndex⌋].find? (fun v => v ≠ 0)) =
          some (checkForHit xIndex yIndex hd worldMap).2.color))) ∧
    (((⌊xIndex⌋ : ℝ) ≠ xIndex ∧ (⌊yIndex⌋ : ℝ) ≠ yIndex) →
      checkForHit xIndex yIndex hd worldMap = (false, hd)) := by
  refine ⟨?_, ?_, ?_, ?_⟩
  · rintro ⟨hx, hy⟩
    have hcx := cppTrunc_eq_floor hx
    have hcy := cppTrunc_eq_floor hy
    simp only [checkForHit]
    rw [if_pos (And.intro hx hy)]
    simp only [hcx, hcy]
    by_cases h1 : cell worldMap ⌊yIndex⌋ ⌊xIndex⌋ = 0 <;>
      by_cases h2 : cell worldMap (⌊yIndex⌋ - 1) (⌊xIndex⌋ - 1) = 0 <;>
      by_cases h3 : cell worldMap ⌊yIndex⌋ (⌊xIndex⌋ - 1) = 0 <;>
      by_cases h4 : cell worldMap (⌊yIndex⌋ - 1) ⌊xIndex⌋ = 0 <;>
      simp [h1, h2, h3, h4, List.find?]
  · rintro ⟨hx, hy⟩
    have hcx := cppTrunc_eq_floor hx
    simp only [checkForHit]
    rw [if_neg (show ¬((⌊xIndex⌋ : ℝ) = xIndex ∧ (⌊yIndex⌋ : ℝ) = yIndex) from
          fun h => hy h.2),
      if_pos hx]
    simp only [hcx]
    by_cases h1 : cell worldMap ⌊yIndex⌋ ⌊xIndex⌋ = 0 <;>
      by_cases h3 : cell worldMap ⌊yIndex⌋ (⌊xIndex⌋ - 1) = 0 <;>
      simp [h1, h3, List.find?]
  · rintro ⟨hx, hy⟩
    have hcy := cppTrunc_eq_floor hy
    simp only [checkForHit]
    rw [if_neg (show ¬((⌊xIndex⌋ : ℝ) = xIndex ∧ (⌊yIndex⌋ : ℝ) = yIndex) from
          fun h => hx h.1),
      if_neg hx, if_pos hy]
    simp only [hcy]
    by_cases h1 : cell worldMap ⌊yIndex⌋ ⌊xIndex⌋ = 0 <;>
      by_cases h4 : cell worldMap (⌊yIndex⌋ - 1) ⌊xIndex⌋ = 0 <;>
      simp [h1, h4, List.find?]
  · rintro ⟨hx, hy⟩
    exact checkForHit_offgrid xIndex yIndex hd worldMap hx hy

/-- C5: `checkForHit` classifies a corner (both coordinates on grid lines)
by consulting the four surrounding cells in the fixed priority order
`(y,x), (y-1,x-1), (y,x-1), (y-1,x)`, reporting the first nonzero material
and leaving the orientation untouched; a vertical-line-only position
consults `(y,x), (y,x-1)` with orientation `vertical`; a horizontal-line-only
position consults `(y,x), (y-1,x)` with orientation `horizontal`; any other
position reports no hit. -/
theorem claim_C5 (xIndex yIndex : ℝ) (hd : HitDetails) (worldMap : Grid) :
    (((⌊xIndex⌋ : ℝ) = xIndex ∧ (⌊yIndex⌋ : ℝ) = yIndex) →
      (((checkForHit xIndex yIndex hd worldMap).1 = true ↔
        ([cell worldMap ⌊yIndex⌋ ⌊xIndex⌋,
          cell worldMap (⌊yIndex⌋ - 1) (⌊xIndex⌋ - 1),
          cell worldMap ⌊yIndex⌋ (⌊xIndex⌋ - 1),
          cell worldMap (⌊yIndex⌋ - 1) ⌊xIndex⌋].any (fun v => v ≠ 0)) = true) ∧
      ((checkForHit xIndex yIndex hd worldMap).1 = true →
        ([cell worldMap ⌊yIndex⌋ ⌊xIndex⌋,
          cell worldMap (⌊yIndex⌋ - 1) (⌊xIndex⌋ - 1),
          cell worldMap ⌊yIndex⌋ (⌊xIndex⌋ - 1),
          cell worldMap (⌊yIndex⌋ - 1) ⌊xIndex⌋].find? (fun v => v ≠ 0)) =
          some (checkForHit xIndex yIndex hd worldMap).2.color) ∧
      (checkForHit xIndex yIndex hd worldMap).2.alignment = hd.alignment)) ∧
    (((⌊xIndex⌋ : ℝ) = xIndex ∧ (⌊yIndex⌋ : ℝ) ≠ yIndex) →
      (((checkForHit xIndex yIndex hd worldMap).1 = true ↔
        (cell worldMap ⌊yIndex⌋ ⌊xIndex⌋ ≠ 0 ∨
          cell worldMap ⌊yIndex⌋ (⌊xIndex⌋ - 1) ≠ 0)) ∧
      ((checkForHit xIndex yIndex hd worldMap).1 = true →
        (checkForHit xIndex yIndex hd worldMap).2.alignment = Alignment.vertical ∧
        ([cell worldMap ⌊yIndex⌋ ⌊xIndex⌋,
          cell worldMap ⌊yIndex⌋ (⌊xIndex⌋ - 1)].find? (fun v => v ≠ 0)) =
          some (checkForHit xIndex yIndex hd worldMap).2.color))) ∧
    (((⌊xIndex⌋ : ℝ) ≠ xIndex ∧ (⌊yIndex⌋ : ℝ) = yIndex) →
      (((checkForHit xIndex yIndex hd worldMap).1 = true ↔
        (cell worldMap ⌊yIndex⌋ ⌊xIndex⌋ ≠ 0 ∨
          cell worldMap (⌊yIndex⌋ - 1) ⌊xIndex⌋ ≠ 0)) ∧
      ((checkForHit xIndex yIndex hd worldMap).1 = true →
        (checkForHit xIndex yIndex hd worldMap).2.alignment = Alignment.horizontal ∧
        ([cell worldMap ⌊yIndex⌋ ⌊xIndex⌋,
          cell worldMap (⌊yIndex⌋ - 1) ⌊xIndex⌋].find? (fun v => v ≠ 0)) =
          some (checkForHit xIndex yIndex hd worldMap).2.color))) ∧
    (((⌊xIndex⌋ : ℝ) ≠ xIndex ∧ (⌊yIndex⌋ : ℝ) ≠ yIndex) →
      checkForHit xIndex yIndex hd worldMap = (false, hd)) :=
  checkForHit_cases xIndex yIndex hd worldMap

/-- Witness for C5: a corner probe at `(2, 2)` on a map whose cell `(2,2)`
holds material `1`. -/
theorem claim_C5_witness :
    ((⌊(2 : ℝ)⌋ : ℝ) = 2) ∧
      (checkForHit 2 2 {} [[1, 1, 1, 1], [1, 0, 0, 1], [1, 0, 1, 1], [1, 1, 1, 1]]).2.alignment =
        ({} : HitDetails).alignment :=
  ⟨by norm_num,
    ((claim_C5 2 2 {} [[1, 1, 1, 1], [1, 0, 0, 1], [1, 0, 1, 1], [1, 1, 1, 1]]).1
      ⟨by norm_num, by norm_num⟩).2.2⟩

/-! ### Where a hit's material can come from -/

lemma checkForHit_true_cases {xIndex yIndex : ℝ} {hd : HitDetails} {m : Grid}
    (h : (checkForHit xIndex yIndex hd m).1 = true) :
    (checkForHit xIndex yIndex hd m).2.color ≠ 0 ∧
      ∃ p ∈ cornerCells ⌊yIndex⌋ ⌊xIndex⌋,
        (checkForHit xIndex yIndex hd m).2.color = cell m p.1 p.2 := by
  by_cases hx : (⌊xIndex⌋ : ℝ) = xIndex <;> by_cases hy : (⌊yIndex⌋ : ℝ) = yIndex
  · obtain ⟨-, hfind, -⟩ := (checkForHit_cases xIndex yIndex hd m).1 ⟨hx, hy⟩
    have h1 := hfind h
    have hmem := List.mem_of_find?_eq_some h1
    have hp := List.find?_some h1
    refine ⟨by simpa using hp, ?_⟩
    simp only [List.mem_cons, List.not_mem_nil, or_false] at hmem
    rcases hmem with h' | h' | h' | h'
    · exact ⟨(⌊yIndex⌋, ⌊xIndex⌋), by simp [cornerCells], h'⟩
    · exact ⟨(⌊yIndex⌋ - 1, ⌊xIndex⌋ - 1), by simp [cornerCells], h'⟩
    · exact ⟨(⌊yIndex⌋, ⌊xIndex⌋ - 1), by simp [cornerCells], h'⟩
    · exact ⟨(⌊yIndex⌋ - 1, ⌊xIndex⌋), by simp [cornerCells], h'⟩
  · obtain ⟨-, himp⟩ := (checkForHit_cases xIndex yIndex hd m).2.1 ⟨hx, hy⟩
    obtain ⟨-, hfind⟩ := himp h
    have hmem := List.mem_of_find?_eq_some hfind
    have hp := List.find?_some hfind
    refine ⟨by simpa using hp, ?_⟩
    simp only [List.mem_cons, List.not_mem_nil, or_false] at hmem
    rcases hmem with h' | h'
    · exact ⟨(⌊yIndex⌋, ⌊xIndex⌋), by simp [cornerCells], h'⟩
    · exact ⟨(⌊yIndex⌋, ⌊xIndex⌋ - 1), by simp [cornerCells], h'⟩
  · obtain ⟨-, himp⟩ := (checkForHit_cases xIndex yIndex hd m).2.2.1 ⟨hx, hy⟩
    obtain ⟨-, hfind⟩ := himp h
    have hmem := List.mem_of_find?_eq_some hfind
    have hp := List.find?_some hfind
    refine ⟨by simpa using hp, ?_⟩
    simp only [List.mem_cons, List.not_mem_nil, or_false] at hmem
    rcases hmem with h' | h'
    · exact ⟨(⌊yIndex⌋, ⌊xIndex⌋), by simp [cornerCells], h'⟩
    · exact ⟨(⌊yIndex⌋ - 1, ⌊xIndex⌋), by simp [cornerCells], h'⟩
  · have hoff := (checkForHit_cases xIndex yIndex hd m).2.2.2 ⟨hx, hy⟩
    rw [hoff] at h
    simp at h

lemma castLoop_spec (m : Grid) (rx ry dx dy : ℝ) :
    ∀ (fuel : ℕ) (mapX mapY : ℤ) (sX sY : ℝ) (temp hd : HitDetails) (mx my : ℤ),
      castLoop m rx ry dx dy fuel mapX mapY sX sY temp = some (hd, mx, my) →
      hd.color ≠ 0 ∧
        ∃ p ∈ cornerCells ⌊(my : ℝ) / 32⌋ ⌊(mx : ℝ) / 32⌋,
          hd.color = cell m p.1 p.2 := by
  intro fuel
  induction fuel with
  | zero =>
    intro mapX mapY sX sY temp hd mx my h
    simp [castLoop] at h
  | succ n ih =>
    intro mapX mapY sX sY temp hd mx my h
    simp only [castLoop] at h
    split_ifs at h with hhit
    · simp only [Option.some.injEq, Prod.mk.injEq] at h
      obtain ⟨h1, h2, h3⟩ := h
      subst h1
      subst h2
      subst h3
      exact checkForHit_true_cases hhit
    · exact ih _ _ _ _ _ _ _ _ h

lemma castColumn_spec {c : Character} {m : Grid} {sw i fuel : ℕ}
    {hd : HitDetails} {mx my : ℤ}
    (h : castColumn c m sw i fuel = some (hd, mx, my)) :
    hd.distance = Real.sqrt ((c.cx - (mx : ℝ)) * (c.cx - (mx : ℝ)) +
        (c.cy - (my : ℝ)) * (c.cy - (my : ℝ))) ∧
    hd.color ≠ 0 ∧
      ∃ p ∈ cornerCells ⌊(my : ℝ) / 32⌋ ⌊(mx : ℝ) / 32⌋,
        hd.color = cell m p.1 p.2 := by
  simp only [castColumn, Option.map_eq_some'] at h
  obtain ⟨⟨t, X, Y⟩, hloop, heq⟩ := h
  simp only [Prod.mk.injEq] at heq
  obtain ⟨h1, h2, h3⟩ := heq
  subst h2
  subst h3
  obtain ⟨hc, hex⟩ := castLoop_spec _ _ _ _ _ _ _ _ _ _ _ _ _ _ hloop
  subst h1
  exact ⟨by simp, by simpa using hc, by simpa using hex⟩

lemma getD_concat_length {α : Type} (l : List α) (a d : α) :
    (l ++ [a]).getD l.length d = a := by
  simp [List.getD]

/-- The induction behind C1/C6/C7: what a successful `calcRaysFrom` run says
about every produced column. -/
lemma calcRaysFrom_spec (c : Character) (m : Grid) (sw fuel : ℕ) :
    ∀ (r i : ℕ) (accH : List HitDetails) (accC : List (ℤ × ℤ))
      (hits : List HitDetails) (casts : List (ℤ × ℤ)),
      accH.length = i → accC.length = i →
      calcRaysFrom c m sw fuel r i accH accC = some (hits, casts) →
      hits.length = i + r ∧ casts.length = i + r ∧
      (∀ k, k < i → hits.getD k {} = accH.getD k {} ∧
        casts.getD k (0, 0) = accC.getD k (0, 0)) ∧
      (∀ j, i ≤ j → j < i + r →
        ∃ hd mapX mapY, castColumn c m sw j fuel = some (hd, mapX, mapY) ∧
          casts.getD j (0, 0) = (mapX, mapY) ∧
          hits.getD j {} =
            (if j ≠ 0 ∧ hd.alignment = Alignment.unknown then
              { hd with alignment := (hits.getD (j - 1) {}).alignment }
            else hd)) := by
  intro r
  induction r with
  | zero =>
    intro i accH accC hits casts hlH hlC h
    simp only [calcRaysFrom, Option.some.injEq, Prod.mk.injEq] at h
    obtain ⟨h1, h2⟩ := h
    subst h1
    subst h2
    exact ⟨by omega, by omega, fun k _ => ⟨rfl, rfl⟩, fun j hj1 hj2 => by omega⟩
  | succ n ih =>
    intro i accH accC hits casts hlH hlC h
    simp only [calcRaysFrom] at h
    cases hcc : castColumn c m sw i fuel with
    | none => rw [hcc] at h; simp at h
    | some v =>
      obtain ⟨hd0, mX, mY⟩ := v
      rw [hcc] at h
      simp only at h
      obtain ⟨hL1, hL2, hpre, hcol⟩ :=
        ih (i + 1)
          (accH ++ [if i ≠ 0 ∧ hd0.alignment = Alignment.unknown then
            { hd0 with alignment := (accH.getD (i - 1) {}).alignment } else hd0])
          (accC ++ [(mX, mY)]) hits casts (by simp [hlH]) (by simp [hlC]) h
      have hgetH : hits.getD i {} =
          (if i ≠ 0 ∧ hd0.alignment = Alignment.unknown then
            { hd0 with alignment := (accH.getD (i - 1) {}).alignment } else hd0) := by
        rw [(hpre i (by omega)).1, ← hlH, getD_concat_length]
      have hgetC : casts.getD i (0, 0) = (mX, mY) := by
        rw [(hpre i (by omega)).2, ← hlC, getD_concat_length]
      refine ⟨by omega, by omega, ?_, ?_⟩
      · intro k hk
        obtain ⟨hH, hC⟩ := hpre k (by omega)
        constructor
        · rw [hH, List.getD_append _ _ _ _ (by omega)]
        · rw [hC, List.getD_append _ _ _ _ (by omega)]
      · intro j hj1 hj2
        rcases eq_or_lt_of_le hj1 with hji | hji
        · subst hji
          refine ⟨hd0, mX, mY, hcc, hgetC, ?_⟩
          rw [hgetH]
          by_cases hcond : i ≠ 0 ∧ hd0.alignment = Alignment.unknown
          · rw [if_pos hcond, if_pos hcond]
            have hprev : hits.getD (i - 1) {} = accH.getD (i - 1) {} := by
              have h0 : i ≠ 0 := hcond.1
              rw [(hpre (i - 1) (by omega)).1, List.getD_append _ _ _ _ (by omega)]
            rw [hprev]
          · rw [if_neg hcond, if_neg hcond]
        · exact hcol j (by omega) (by omega)

/-- C1 (amended): whenever every column's traversal finds a hit within the
step budget, `calcRays` returns exactly `screenWidth + 1` results in column
order, each with a nonnegative distance and a nonzero material read from the
grid at the reported strike position or one of its corner-rule neighbours. -/
theorem claim_C1 (c : Character) (m : Grid) (sw fuel : ℕ)
    (hits : List HitDetails) (casts : List (ℤ × ℤ)) (_hsw : 0 < sw)
    (h : calcRays c m sw fuel = some (hits, casts)) :
    hits.length = sw + 1 ∧ casts.length = sw + 1 ∧
    ∀ k, k ≤ sw →
      (∃ hd, castColumn c m sw k fuel =
        some (hd, (casts.getD k (0, 0)).1, (casts.getD k (0, 0)).2)) ∧
      0 ≤ (hits.getD k {}).distance ∧
      (hits.getD k {}).color ≠ 0 ∧
      ∃ p ∈ cornerCells ⌊(((casts.getD k (0, 0)).2 : ℤ) : ℝ) / 32⌋
          ⌊(((casts.getD k (0, 0)).1 : ℤ) : ℝ) / 32⌋,
        (hits.getD k {}).color = cell m p.1 p.2 := by
  obtain ⟨hL1, hL2, -, hcol⟩ :=
    calcRaysFrom_spec c m sw fuel (sw + 1) 0 [] [] hits casts rfl rfl h
  refine ⟨by omega, by omega, fun k hk => ?_⟩
  obtain ⟨hd, mX, mY, hcast, hcastD, hhit⟩ := hcol k (by omega) (by omega)
  obtain ⟨hdist, hcolr, hex⟩ := castColumn_spec hcast
  refine ⟨⟨hd, by rw [hcastD]; exact hcast⟩, ?_⟩
  rw [hhit, hcastD]
  by_cases hcond : k ≠ 0 ∧ hd.alignment = Alignment.unknown
  · rw [if_pos hcond]
    refine ⟨?_, by simpa using hcolr, by simpa using hex⟩
    simp only
    rw [hdist]
    exact Real.sqrt_nonneg _
  · rw [if_neg hcond]
    refine ⟨?_, hcolr, by simpa using hex⟩
    rw [hdist]
    exact Real.sqrt_nonneg _

/-- C6: every recorded distance is the straight-line Euclidean distance from
the viewpoint's center to the recorded strike position. -/
theorem claim_C6 (c : Character) (m : Grid) (sw fuel : ℕ)
    (hits : List HitDetails) (casts : List (ℤ × ℤ)) (_hsw : 0 < sw)
    (h : calcRays c m sw fuel = some (hits, casts)) :
    ∀ k, k ≤ sw →
      (hits.getD k {}).distance =
        Real.sqrt
          ((c.cx - (((casts.getD k (0, 0)).1 : ℤ) : ℝ)) *
              (c.cx - (((casts.getD k (0, 0)).1 : ℤ) : ℝ)) +
            (c.cy - (((casts.getD k (0, 0)).2 : ℤ) : ℝ)) *
              (c.cy - (((casts.getD k (0, 0)).2 : ℤ) : ℝ))) := by
  obtain ⟨hL1, hL2, -, hcol⟩ :=
    calcRaysFrom_spec c m sw fuel (sw + 1) 0 [] [] hits casts rfl rfl h
  intro k hk
  obtain ⟨hd, mX, mY, hcast, hcastD, hhit⟩ := hcol k (by omega) (by omega)
  obtain ⟨hdist, -, -⟩ := castColumn_spec hcast
  rw [hhit, hcastD]
  by_cases hcond : k ≠ 0 ∧ hd.alignment = Alignment.unknown
  · rw [if_pos hcond]
    simpa using hdist
  · rw [if_neg hcond]
    simpa using hdist

/-- C7: a column `i > 0` whose raw hit has orientation `unknown` inherits the
orientation of column `i - 1`'s finalised result; column `0` keeps
`unknown`. -/
theorem claim_C7 (c : Character) (m : Grid) (sw fuel : ℕ)
    (hits : List HitDetails) (casts : List (ℤ × ℤ)) (j : ℕ)
    (hd : HitDetails) (mapX mapY : ℤ)
    (h : calcRays c m sw fuel = some (hits, casts)) (hj : j ≤ sw)
    (hcol : castColumn c m sw j fuel = some (hd, mapX, mapY))
    (hunk : hd.alignment = Alignment.unknown) :
    (0 < j → (hits.getD j {}).alignment = (hits.getD (j - 1) {}).alignment) ∧
    (j = 0 → (hits.getD 0 {}).alignment = Alignment.unknown) := by
  obtain ⟨hL1, hL2, -, hcolumns⟩ :=
    calcRaysFrom_spec c m sw fuel (sw + 1) 0 [] [] hits casts rfl rfl h
  obtain ⟨hd', mX', mY', hcast', hcastD', hhit'⟩ := hcolumns j (by omega) (by omega)
  rw [hcol] at hcast'
  simp only [Option.some.injEq, Prod.mk.injEq] at hcast'
  obtain ⟨h1, -, -⟩ := hcast'
  subst h1
  constructor
  · intro hj0
    rw [hhit', if_pos ⟨by omega, hunk⟩]
  · intro hj0
    subst hj0
    rw [hhit', if_neg (by simp)]
    exact hunk

/-! ### Concrete runs used by witnesses and the C1 counterexample -/

lemma cppTrunc_ofNat (n : ℕ) : cppTrunc (n : ℝ) = n := by
  rw [cppTrunc_of_nonneg (by positivity), ← Int.floor_intCast (α := ℝ) n]
  norm_num

lemma hypoLengthA : hypoLength (-1) 0 = 1 := by
  unfold hypoLength
  norm_num

lemma deltaDistXA : deltaDistSigned (-1) 1 = -32 := by
  unfold deltaDistSigned deltaDistRaw
  rw [if_pos (by norm_num : (-1 : ℝ) < 0), if_neg (by norm_num : ¬(-1 : ℝ) = 0)]
  norm_num

lemma deltaDistYA : deltaDistSigned 0 1 = 1e30 := by
  unfold deltaDistSigned deltaDistRaw
  norm_num

lemma sideDistXA : initialSideDist 80 (-1) (-32) = -16 := by
  unfold initialSideDist
  rw [if_pos (by norm_num : (-1 : ℝ) < 0),
    show (80 : ℤ).tmod 32 = 16 from by decide]
  norm_num

lemma sideDistYA : initialSideDist 48 0 (1e30) = 5e29 := by
  unfold initialSideDist
  rw [if_neg (by norm_num : ¬(0 : ℝ) < 0),
    show (48 : ℤ).tmod 32 = 16 from by decide]
  norm_num

lemma chooseAdjustmentA : chooseAdjustment (-16 : ℝ) (5e29) = -16 := by
  unfold chooseAdjustment
  rw [if_pos (by norm_num)]

lemma adjustmentForXA : adjustmentFor (-16 : ℝ) (-32) = -16 := by
  unfold adjustmentFor signOperator
  rw [if_neg (by norm_num : ¬(0 : ℝ) < -32),
    show |(-16 : ℝ) / -32 * 32| * -1 = ((-16 : ℤ) : ℝ) from by norm_num,
    cppRound_intCast]

lemma adjustmentForYA : adjustmentFor (-16 : ℝ) (1e30) = 0 := by
  unfold adjustmentFor signOperator cppRound
  rw [if_pos (by norm_num : (0 : ℝ) < 1e30), if_pos (by positivity)]
  rw [Int.floor_eq_zero_iff]
  constructor
  · positivity
  · rw [abs_of_nonpos (by norm_num : (-16 : ℝ) / 1e30 * 32 ≤ 0)]
    norm_num

lemma checkForHitA : checkForHit 2 (3 / 2) {} mapA =
    (true, { distance := 0, color := 1, alignment := Alignment.vertical }) := by
  have h32 : ((⌊(3 / 2 : ℝ)⌋ : ℝ) = 3 / 2) = False := by
    simp only [eq_iff_iff, iff_false]
    norm_num
  simp only [checkForHit]
  rw [if_neg (fun h => h32 ▸ h.2), if_pos (by norm_num : ((⌊(2 : ℝ)⌋ : ℝ) = 2))]
  rw [show cppTrunc (2 : ℝ) = 2 from by
      rw [cppTrunc_of_nonneg (by norm_num)]; norm_num,
    show ⌊(3 / 2 : ℝ)⌋ = 1 from by norm_num]
  rw [if_pos (Or.inl (by decide : cell mapA 1 2 ≠ 0)), if_pos (by decide : cell mapA 1 2 ≠ 0)]
  rw [show cell mapA 1 2 = 1 from by decide]

lemma castLoopA : castLoop mapA (-1) 0 (-32) (1e30) 1 80 48 (-16) (5e29) {} =
    some ({ distance := 0, color := 1, alignment := Alignment.vertical }, 64, 48) := by
  simp only [castLoop, chooseAdjustmentA, adjustmentForXA, adjustmentForYA]
  norm_num
  rw [checkForHitA]
  exact ⟨rfl, rfl⟩

lemma sqrt256 : Real.sqrt 256 = 16 := by
  rw [show (256 : ℝ) = 16 ^ 2 from by norm_num, Real.sqrt_sq (by norm_num : (0 : ℝ) ≤ 16)]

lemma cppTrunc80 : cppTrunc (80 : ℝ) = 80 := by
  rw [cppTrunc_of_nonneg (by norm_num)]
  norm_num

lemma cppTrunc48 : cppTrunc (48 : ℝ) = 48 := by
  rw [cppTrunc_of_nonneg (by norm_num)]
  norm_num

lemma castColumnA (i : ℕ) (hi : i ≤ 1) :
    castColumn charA mapA 1 i 1 =
      some ({ distance := 16, color := 1, alignment := Alignment.vertical }, 64, 48) := by
  interval_cases i <;>
  · simp only [castColumn, charA]
    norm_num
    rw [hypoLengthA, deltaDistXA, deltaDistYA, cppTrunc80, cppTrunc48,
      sideDistXA, sideDistYA, castLoopA]
    exact ⟨{ distance := 0, color := 1, alignment := Alignment.vertical },
      rfl, sqrt256, rfl, rfl⟩

lemma calcRaysA : calcRays charA mapA 1 1 = some (hitsA, castsA) := by
  show calcRaysFrom charA mapA 1 1 (1 + 1) 0 [] [] = _
  simp only [calcRaysFrom, castColumnA 0 (by norm_num), castColumnA 1 (by norm_num)]
  norm_num [hitsA, castsA]

/-- Witness for C1 on the scenario-A run. -/
theorem claim_C1_witness :
    (0 : ℕ) < 1 ∧ calcRays charA mapA 1 1 = some (hitsA, castsA) ∧
      hitsA.length = 1 + 1 ∧ castsA.length = 1 + 1 :=
  ⟨by norm_num, calcRaysA,
    (claim_C1 charA mapA 1 1 hitsA castsA (by norm_num) calcRaysA).1,
    (claim_C1 charA mapA 1 1 hitsA castsA (by norm_num) calcRaysA).2.1⟩

/-- Witness for C6 on the scenario-A run. -/
theorem claim_C6_witness :
    (0 : ℕ) < 1 ∧
      ∀ k, k ≤ 1 →
        (hitsA.getD k {}).distance =
          Real.sqrt
            ((charA.cx - (((castsA.getD k (0, 0)).1 : ℤ) : ℝ)) *
                (charA.cx - (((castsA.getD k (0, 0)).1 : ℤ) : ℝ)) +
              (charA.cy - (((castsA.getD k (0, 0)).2 : ℤ) : ℝ)) *
                (charA.cy - (((castsA.getD k (0, 0)).2 : ℤ) : ℝ))) :=
  ⟨by norm_num, claim_C6 charA mapA 1 1 hitsA castsA (by norm_num) calcRaysA⟩

lemma cppTrunc64 : cppTrunc (64 : ℝ) = 64 := by
  rw [cppTrunc_of_nonneg (by norm_num)]
  norm_num

lemma sideDistXB : initialSideDist 64 (-1) (-32) = 0 := by
  unfold initialSideDist
  rw [if_pos (by norm_num : (-1 : ℝ) < 0),
    show (64 : ℤ).tmod 32 = 0 from by decide]
  norm_num

lemma chooseAdjustmentB : chooseAdjustment (0 : ℝ) (5e29) = 0 := by
  unfold chooseAdjustment
  rw [if_pos (by norm_num)]

lemma adjustmentFor_zero (d : ℝ) : adjustmentFor 0 d = 0 := by
  unfold adjustmentFor signOperator cppRound
  by_cases hd : (0 : ℝ) < d
  · rw [if_pos hd]
    norm_num
  · rw [if_neg hd]
    norm_num

lemma castLoopB : castLoop mapA (-1) 0 (-32) (1e30) 1 64 48 0 (5e29) {} =
    some ({ distance := 0, color := 1, alignment := Alignment.vertical }, 64, 48) := by
  simp only [castLoop, chooseAdjustmentB, adjustmentFor_zero]
  norm_num
  rw [checkForHitA]
  exact ⟨rfl, rfl⟩

lemma castColumnB (i : ℕ) (hi : i ≤ 2) :
    castColumn charB mapA 2 i 1 =
      some ({ distance := 0, color := 1, alignment := Alignment.vertical }, 64, 48) := by
  interval_cases i <;>
  · simp only [castColumn, charB, charA]
    norm_num
    rw [hypoLengthA, deltaDistXA, deltaDistYA, cppTrunc64, cppTrunc48,
      sideDistXB, sideDistYA, castLoopB]
    exact ⟨{ distance := 0, color := 1, alignment := Alignment.vertical },
      rfl, rfl, rfl⟩

lemma calcRaysB : calcRays charB mapA 2 1 = some (hitsB, castsB) := by
  show calcRaysFrom charB mapA 2 1 (2 + 1) 0 [] [] = _
  simp only [calcRaysFrom, castColumnB 0 (by norm_num), castColumnB 1 (by norm_num),
    castColumnB 2 (by norm_num)]
  norm_num [hitsB, castsB]

/-- Counterexample to C1 as stated: a viewpoint standing exactly on a grid
line next to a wall produces a complete `calcRays` pass whose very first
result has distance `0`, not `> 0`. -/
theorem claim_C1_counterexample :
    calcRays charB mapA 2 1 = some (hitsB, castsB) ∧
      ¬ 0 < (hitsB.getD 0 {}).distance :=
  ⟨calcRaysB, by norm_num [hitsB]⟩

lemma sideDistYC : initialSideDist 64 0 (1e30) = 1e30 := by
  unfold initialSideDist
  rw [if_neg (by norm_num : ¬(0 : ℝ) < 0),
    show (64 : ℤ).tmod 32 = 0 from by decide]
  norm_num

lemma chooseAdjustmentC : chooseAdjustment (-16 : ℝ) (1e30) = -16 := by
  unfold chooseAdjustment
  rw [if_pos (by norm_num)]

lemma checkForHitC : checkForHit 2 2 {} mapC =
    (true, { distance := 0, color := 1, alignment := Alignment.unknown }) := by
  simp only [checkForHit]
  rw [if_pos ⟨by norm_num, by norm_num⟩,
    show cppTrunc (2 : ℝ) = 2 from by
      rw [cppTrunc_of_nonneg (by norm_num)]; norm_num]
  rw [if_pos (by decide : cell mapC 2 2 ≠ 0), show cell mapC 2 2 = 1 from by decide]

lemma castLoopC : castLoop mapC (-1) 0 (-32) (1e30) 1 80 64 (-16) (1e30) {} =
    some ({ distance := 0, color := 1, alignment := Alignment.unknown }, 64, 64) := by
  simp only [castLoop, chooseAdjustmentC, adjustmentForXA, adjustmentForYA]
  norm_num
  rw [checkForHitC]
  exact ⟨rfl, rfl⟩

lemma castColumnC (i : ℕ) (hi : i ≤ 1) :
    castColumn charC mapC 1 i 1 =
      some ({ distance := 16, color := 1, alignment := Alignment.unknown }, 64, 64) := by
  interval_cases i <;>
  · simp only [castColumn, charC, charA]
    norm_num
    rw [hypoLengthA, deltaDistXA, deltaDistYA, cppTrunc80, cppTrunc64,
      sideDistXA, sideDistYC, castLoopC]
    exact ⟨{ distance := 0, color := 1, alignment := Alignment.unknown },
      rfl, sqrt256, rfl, rfl⟩

lemma calcRaysC : calcRays charC mapC 1 1 = some (hitsC, castsC) := by
  show calcRaysFrom charC mapC 1 1 (1 + 1) 0 [] [] = _
  simp only [calcRaysFrom, castColumnC 0 (by norm_num), castColumnC 1 (by norm_num)]
  norm_num [hitsC, castsC]

/-- Witness for C7 on the scenario-C run at column `1`, whose raw corner hit
has orientation `unknown`. -/
theorem claim_C7_witness :
    (1 : ℕ) ≤ 1 ∧
      ({ distance := 16, color := 1, alignment := Alignment.unknown } :
        HitDetails).alignment = Alignment.unknown ∧
      ((0 < 1 → (hitsC.getD 1 {}).alignment = (hitsC.getD (1 - 1) {}).alignment) ∧
        (1 = 0 → (hitsC.getD 0 {}).alignment = Alignment.unknown)) :=
  ⟨by norm_num, rfl,
    claim_C7 charC mapC 1 1 hitsC castsC 1
      { distance := 16, color := 1, alignment := Alignment.unknown } 64 64
      calcRaysC (by norm_num) (castColumnC 1 (by norm_num)) rfl⟩

/-! ### C3: termination of the traversal loop inside a solid border

The development below shows that from any start position strictly inside a
grid whose outermost cells are all occupied, the traversal loop of
`Character::calcRays` reaches an occupied cell within `32*(W+H)+2`
iterations, for every ray direction (including rays parallel to an axis and
the degenerate zero ray). -/

lemma cppRound_neg_of_nonneg {t : ℝ} (ht : 0 ≤ t) :
    cppRound (-t) = -⌊t + 1 / 2⌋ := by
  rcases eq_or_lt_of_le ht with h0 | h0
  · rw [← h0]
    norm_num [cppRound]
  · unfold cppRound
    rw [if_neg (by linarith)]
    rw [show -t - 1 / 2 = -(t + 1 / 2) from by ring, Int.ceil_neg]

lemma floor_half_shift_nonneg {t : ℝ} (ht : 0 ≤ t) : 0 ≤ ⌊t + 1 / 2⌋ :=
  Int.floor_nonneg.mpr (by linarith)

lemma floor_half_shift_le {t : ℝ} {d : ℤ} (ht : t ≤ (d : ℝ)) : ⌊t + 1 / 2⌋ ≤ d := by
  have h : ⌊t + 1 / 2⌋ < d + 1 := by
    rw [Int.floor_lt]
    push_cast
    linarith
  omega

/-- The integer advance computed by one loop iteration is the rounded ratio,
signed by the axis's step-distance sign. -/
lemma adjustmentFor_eq {s Δ : ℝ} {dmax : ℤ}
    (ht : |s / Δ * 32| ≤ (dmax : ℝ)) :
    ∃ k : ℤ, 0 ≤ k ∧ k ≤ dmax ∧
      adjustmentFor s Δ = (if 0 < Δ then k else -k) := by
  set t := |s / Δ * 32| with hT
  have ht0 : 0 ≤ t := abs_nonneg _
  refine ⟨⌊t + 1 / 2⌋, floor_half_shift_nonneg ht0, floor_half_shift_le ht, ?_⟩
  unfold adjustmentFor signOperator
  rw [← hT]
  by_cases hpos : 0 < Δ
  · rw [if_pos hpos, if_pos hpos, mul_one]
    unfold cppRound
    rw [if_pos ht0]
  · rw [if_neg hpos, if_neg hpos,
      show t * (-1) = -t from by ring, cppRound_neg_of_nonneg ht0]

lemma abs_frac_mul {d : ℤ} (hd : 0 ≤ d) (Δ : ℝ) :
    |(d : ℝ) / 32 * Δ| = (d : ℝ) / 32 * |Δ| := by
  rw [abs_mul, abs_div]
  rw [abs_of_nonneg (by exact_mod_cast hd : (0 : ℝ) ≤ (d : ℝ))]
  norm_num

/-- When the chosen side distance belongs to the axis being advanced, the
advance is exactly `d` cells' worth of pixels toward the ray direction. -/
lemma adjustmentFor_chosen {d : ℤ} {Δ : ℝ} (hΔ : Δ ≠ 0) (hd : 0 ≤ d) :
    adjustmentFor ((d : ℝ) / 32 * Δ) Δ = (if 0 < Δ then d else -d) := by
  have harg : (d : ℝ) / 32 * Δ / Δ * 32 = (d : ℝ) := by
    field_simp
    ring
  unfold adjustmentFor signOperator
  rw [harg, abs_of_nonneg (by exact_mod_cast hd : (0 : ℝ) ≤ (d : ℝ))]
  by_cases hpos : 0 < Δ
  · rw [if_pos hpos, if_pos hpos, mul_one, cppRound_intCast]
  · rw [if_neg hpos, if_neg hpos,
      show (d : ℝ) * (-1) = -(d : ℝ) from by ring,
      cppRound_neg_of_nonneg (by exact_mod_cast hd)]
    have : ⌊(d : ℝ) + 1 / 2⌋ = d := by
      rw [Int.floor_eq_iff]
      constructor <;> [push_cast; push_cast] <;> linarith
    rw [this]

/-- The advance of the axis that was not chosen never overshoots that axis's
own distance to its next grid line. -/
lemma adjustmentFor_other {s Δo : ℝ} {dmax : ℤ} (hΔo : Δo ≠ 0) (hd : 0 ≤ dmax)
    (hle : |s| ≤ |(dmax : ℝ) / 32 * Δo|) :
    ∃ k : ℤ, 0 ≤ k ∧ k ≤ dmax ∧
      adjustmentFor s Δo = (if 0 < Δo then k else -k) := by
  apply adjustmentFor_eq
  rw [abs_frac_mul hd] at hle
  have hΔo' : 0 < |Δo| := abs_pos.mpr hΔo
  rw [show s / Δo * 32 = s * 32 / Δo from by ring, abs_div, abs_mul]
  rw [div_le_iff₀ hΔo']
  calc |s| * |(32 : ℝ)| = |s| * 32 := by norm_num
    _ ≤ ((dmax : ℝ) / 32 * |Δo|) * 32 := by
        apply mul_le_mul_of_nonneg_right hle (by norm_num)
    _ = (dmax : ℝ) * |Δo| := by ring

lemma floor_div32_of_multiple {k : ℤ} : ⌊((32 * k : ℤ) : ℝ) / 32⌋ = k := by
  rw [show ((32 * k : ℤ) : ℝ) / 32 = (k : ℝ) from by push_cast; ring, Int.floor_intCast]

lemma on_gridline_iff {a : ℤ} :
    ((⌊(a : ℝ) / 32⌋ : ℝ) = (a : ℝ) / 32) ↔ a % 32 = 0 := by
  constructor
  · intro h
    have h32 : (a : ℝ) = 32 * (⌊(a : ℝ) / 32⌋ : ℝ) := by
      field_simp at h
      linarith
    have : a = 32 * ⌊(a : ℝ) / 32⌋ := by exact_mod_cast h32
    omega
  · intro h
    obtain ⟨k, hk⟩ : ∃ k, a = 32 * k := ⟨a / 32, by omega⟩
    subst hk
    rw [floor_div32_of_multiple]
    push_cast
    ring

lemma floor_div32_lb {a : ℤ} (h : 32 ≤ a) : 1 ≤ ⌊(a : ℝ) / 32⌋ := by
  rw [Int.le_floor]
  rw [le_div_iff₀ (by norm_num : (0 : ℝ) < 32)]
  norm_num
  exact_mod_cast h

lemma floor_div32_ub {a n : ℤ} (h : a ≤ 32 * n) : ⌊(a : ℝ) / 32⌋ ≤ n := by
  have hle : ⌊(a : ℝ) / 32⌋ ≤ ⌊((32 * n : ℤ) : ℝ) / 32⌋ := by
    apply Int.floor_le_floor
    gcongr
  rw [floor_div32_of_multiple] at hle
  exact hle

/-- Landing on the first or last interior grid line of either axis forces a
hit when the grid's outermost cells are occupied. -/
lemma hit_at_extreme
    (m : Grid) (W H : ℕ)
    (hbC : ∀ y : ℤ, 0 ≤ y → y < (H : ℤ) → cell m y 0 ≠ 0 ∧ cell m y ((W : ℤ) - 1) ≠ 0)
    (hbR : ∀ x : ℤ, 0 ≤ x → x < (W : ℤ) → cell m 0 x ≠ 0 ∧ cell m ((H : ℤ) - 1) x ≠ 0)
    (mapX mapY : ℤ) (temp : HitDetails)
    (hx1 : 32 ≤ mapX) (hx2 : mapX ≤ 32 * ((W : ℤ) - 1))
    (hy1 : 32 ≤ mapY) (hy2 : mapY ≤ 32 * ((H : ℤ) - 1))
    (hext : mapX = 32 ∨ mapX = 32 * ((W : ℤ) - 1) ∨ mapY = 32 ∨
      mapY = 32 * ((H : ℤ) - 1)) :
    (checkForHit ((mapX : ℝ) / 32) ((mapY : ℝ) / 32) temp m).1 = true := by
  have hW2 : (2 : ℤ) ≤ (W : ℤ) := by omega
  have hH2 : (2 : ℤ) ≤ (H : ℤ) := by omega
  have ha1 : 1 ≤ ⌊(mapX : ℝ) / 32⌋ := floor_div32_lb hx1
  have ha2 : ⌊(mapX : ℝ) / 32⌋ ≤ (W : ℤ) - 1 := floor_div32_ub hx2
  have hb1 : 1 ≤ ⌊(mapY : ℝ) / 32⌋ := floor_div32_lb hy1
  have hb2 : ⌊(mapY : ℝ) / 32⌋ ≤ (H : ℤ) - 1 := floor_div32_ub hy2
  have haL : mapX = 32 → ⌊(mapX : ℝ) / 32⌋ = 1 := by
    intro h
    rw [h, show ((32 : ℤ) : ℝ) / 32 = 1 from by norm_num]
    norm_num
  have haR : mapX = 32 * ((W : ℤ) - 1) → ⌊(mapX : ℝ) / 32⌋ = (W : ℤ) - 1 := by
    intro h
    rw [h, floor_div32_of_multiple]
  have hbT : mapY = 32 → ⌊(mapY : ℝ) / 32⌋ = 1 := by
    intro h
    rw [h, show ((32 : ℤ) : ℝ) / 32 = 1 from by norm_num]
    norm_num
  have hbB : mapY = 32 * ((H : ℤ) - 1) → ⌊(mapY : ℝ) / 32⌋ = (H : ℤ) - 1 := by
    intro h
    rw [h, floor_div32_of_multiple]
  by_cases hX : mapX % 32 = 0 <;> by_cases hY : mapY % 32 = 0
  · -- a lattice corner
    have hix := on_gridline_iff.mpr hX
    have hiy := on_gridline_iff.mpr hY
    obtain ⟨hiff, -, -⟩ :=
      (checkForHit_cases ((mapX : ℝ) / 32) ((mapY : ℝ) / 32) temp m).1 ⟨hix, hiy⟩
    rw [hiff, List.any_eq_true]
    rcases hext with h | h | h | h
    · exact ⟨cell m ⌊(mapY : ℝ) / 32⌋ (⌊(mapX : ℝ) / 32⌋ - 1), by simp,
        by simpa [haL h] using (hbC ⌊(mapY : ℝ) / 32⌋ (by omega) (by omega)).1⟩
    · exact ⟨cell m ⌊(mapY : ℝ) / 32⌋ ⌊(mapX : ℝ) / 32⌋, by simp,
        by simpa [haR h] using (hbC ⌊(mapY : ℝ) / 32⌋ (by omega) (by omega)).2⟩
    · exact ⟨cell m (⌊(mapY : ℝ) / 32⌋ - 1) ⌊(mapX : ℝ) / 32⌋, by simp,
        by simpa [hbT h] using (hbR ⌊(mapX : ℝ) / 32⌋ (by omega) (by omega)).1⟩
    · exact ⟨cell m ⌊(mapY : ℝ) / 32⌋ ⌊(mapX : ℝ) / 32⌋, by simp,
        by simpa [hbB h] using (hbR ⌊(mapX : ℝ) / 32⌋ (by omega) (by omega)).2⟩
  · -- only X on a grid line: a vertical hit
    have hix := on_gridline_iff.mpr hX
    have hniy : ¬((⌊(mapY : ℝ) / 32⌋ : ℝ) = (mapY : ℝ) / 32) := fun hc =>
      hY (on_gridline_iff.mp hc)
    obtain ⟨hiff, -⟩ :=
      (checkForHit_cases ((mapX : ℝ) / 32) ((mapY : ℝ) / 32) temp m).2.1 ⟨hix, hniy⟩
    rw [hiff]
    rcases hext with h | h | h | h
    · exact Or.inr (by simpa [haL h] using
        (hbC ⌊(mapY : ℝ) / 32⌋ (by omega) (by omega)).1)
    · exact Or.inl (by simpa [haR h] using
        (hbC ⌊(mapY : ℝ) / 32⌋ (by omega) (by omega)).2)
    · exact absurd (by omega : mapY % 32 = 0) hY
    · exact absurd (by omega : mapY % 32 = 0) hY
  · -- only Y on a grid line: a horizontal hit
    have hiy := on_gridline_iff.mpr hY
    have hnix : ¬((⌊(mapX : ℝ) / 32⌋ : ℝ) = (mapX : ℝ) / 32) := fun hc =>
      hX (on_gridline_iff.mp hc)
    obtain ⟨hiff, -⟩ :=
      (checkForHit_cases ((mapX : ℝ) / 32) ((mapY : ℝ) / 32) temp m).2.2.1 ⟨hnix, hiy⟩
    rw [hiff]
    rcases hext with h | h | h | h
    · exact absurd (by omega : mapX % 32 = 0) hX
    · exact absurd (by omega : mapX % 32 = 0) hX
    · exact Or.inr (by simpa [hbT h] using
        (hbR ⌊(mapX : ℝ) / 32⌋ (by omega) (by omega)).1)
    · exact Or.inl (by simpa [hbB h] using
        (hbR ⌊(mapX : ℝ) / 32⌋ (by omega) (by omega)).2)
  · -- neither coordinate on a grid line is impossible at an extreme
    rcases hext with h | h | h | h
    · exact absurd (by omega : mapX % 32 = 0) hX
    · exact absurd (by omega : mapX % 32 = 0) hX
    · exact absurd (by omega : mapY % 32 = 0) hY
    · exact absurd (by omega : mapY % 32 = 0) hY

/-- Moving one axis by `k ≤ d` pixels in the direction of its step distance
stays inside the box and shrinks the remaining travel by exactly `k`. -/
lemma axis_step {r Δ : ℝ} (h1 : 0 ≤ r → 0 < Δ) (h2 : r < 0 → Δ < 0)
    {hi pos d k : ℤ} (hA : AxisOk r hi pos d) (hk0 : 0 ≤ k) (hkd : k ≤ d) :
    (32 ≤ pos + (if 0 < Δ then k else -k) ∧
      pos + (if 0 < Δ then k else -k) ≤ hi) ∧
    axisMeasure r hi (pos + (if 0 < Δ then k else -k)) =
      axisMeasure r hi pos - k := by
  obtain ⟨hd0, hd32, hp1, hp2, hpos, hneg⟩ := hA
  unfold axisMeasure
  rcases le_or_lt 0 r with hr | hr
  · obtain ⟨-, -, hnext⟩ := hpos hr
    rw [if_pos (h1 hr), if_pos hr, if_pos hr]
    exact ⟨⟨by omega, by omega⟩, by ring⟩
  · obtain ⟨-, hnext⟩ := hneg hr
    have hΔ := h2 hr
    rw [if_neg (by linarith), if_neg (by linarith), if_neg (by linarith)]
    exact ⟨⟨by omega, by omega⟩, by ring⟩

/-- Re-establishing the axis invariant after a step that did not land on the
first or last interior grid line. -/
lemma axis_restore {r : ℝ} {hi pos' d' : ℤ}
    (hb1 : 32 ≤ pos') (hb2 : pos' ≤ hi) (hhi : hi % 32 = 0)
    (hne1 : pos' ≠ 32) (hne2 : pos' ≠ hi)
    (hd'1 : 1 ≤ d') (hd'32 : d' ≤ 32)
    (hc1 : 0 ≤ r → (pos' + d') % 32 = 0) (hc2 : r < 0 → (pos' - d') % 32 = 0) :
    AxisOk r hi pos' d' := by
  refine ⟨by omega, hd'32, hb1, hb2, ?_, ?_⟩
  · intro hr
    have hc := hc1 hr
    exact ⟨hc, hd'1, by omega⟩
  · intro hr
    have hc := hc2 hr
    exact ⟨hc, by omega⟩

/-- The traversal loop terminates within the measure's budget: from any
state satisfying both axis invariants, a hit is found. -/
lemma castLoop_terminates
    (m : Grid) (W H : ℕ) (rx ry Δx Δy : ℝ)
    (hbC : ∀ y : ℤ, 0 ≤ y → y < (H : ℤ) → cell m y 0 ≠ 0 ∧ cell m y ((W : ℤ) - 1) ≠ 0)
    (hbR : ∀ x : ℤ, 0 ≤ x → x < (W : ℤ) → cell m 0 x ≠ 0 ∧ cell m ((H : ℤ) - 1) x ≠ 0)
    (hΔx : (0 ≤ rx → 0 < Δx) ∧ (rx < 0 → Δx < 0))
    (hΔy : (0 ≤ ry → 0 < Δy) ∧ (ry < 0 → Δy < 0)) :
    ∀ (fuel : ℕ) (mapX mapY dx dy : ℤ) (temp : HitDetails),
      AxisOk rx (32 * ((W : ℤ) - 1)) mapX dx →
      AxisOk ry (32 * ((H : ℤ) - 1)) mapY dy →
      axisMeasure rx (32 * ((W : ℤ) - 1)) mapX +
          axisMeasure ry (32 * ((H : ℤ) - 1)) mapY +
          (if dx = 0 ∨ dy = 0 then 1 else 0) < (fuel : ℤ) →
      ∃ out, castLoop m rx ry Δx Δy fuel mapX mapY
          ((dx : ℝ) / 32 * Δx) ((dy : ℝ) / 32 * Δy) temp = some out := by
  have hΔx0 : Δx ≠ 0 := by
    rcases le_or_lt 0 rx with h | h
    · exact ne_of_gt (hΔx.1 h)
    · exact ne_of_lt (hΔx.2 h)
  have hΔy0 : Δy ≠ 0 := by
    rcases le_or_lt 0 ry with h | h
    · exact ne_of_gt (hΔy.1 h)
    · exact ne_of_lt (hΔy.2 h)
  have hhiX : (32 * ((W : ℤ) - 1)) % 32 = 0 := by omega
  have hhiY : (32 * ((H : ℤ) - 1)) % 32 = 0 := by omega
  intro fuel
  induction fuel with
  | zero =>
    intro mapX mapY dx dy temp hAx hAy hmeas
    exfalso
    obtain ⟨-, -, hx1, hx2, -, -⟩ := hAx
    obtain ⟨-, -, hy1, hy2, -, -⟩ := hAy
    unfold axisMeasure at hmeas
    push_cast at hmeas
    split_ifs at hmeas <;> omega
  | succ n ih =>
    intro mapX mapY dx dy temp hAx hAy hmeas
    have hAx' := hAx
    have hAy' := hAy
    obtain ⟨hdx0, hdx32, hx1, hx2, hxpos, hxneg⟩ := hAx'
    obtain ⟨hdy0, hdy32, hy1, hy2, hypos, hyneg⟩ := hAy'
    simp only [castLoop]
    by_cases hstall : dx = 0 ∨ dy = 0
    · -- the chosen side distance is zero: the position does not move
      have hch0 : chooseAdjustment ((dx : ℝ) / 32 * Δx) ((dy : ℝ) / 32 * Δy) = 0 := by
        unfold chooseAdjustment
        rcases hstall with h | h
        · subst h
          rw [if_pos (by simp [abs_nonneg])]
          norm_num
        · subst h
          split_ifs with h'
          · have habs : |(dx : ℝ) / 32 * Δx| ≤ 0 := by simpa using h'
            have hz : (dx : ℝ) / 32 * Δx = 0 := abs_nonpos_iff.mp habs
            simpa using hz
          · norm_num
      rw [hch0, adjustmentFor_zero, adjustmentFor_zero, add_zero, add_zero]
      by_cases hhit : (checkForHit ((mapX : ℝ) / 32) ((mapY : ℝ) / 32) temp m).1 = true
      · exact ⟨_, by rw [if_pos hhit]⟩
      · rw [if_neg hhit]
        have hnoext : ¬(mapX = 32 ∨ mapX = 32 * ((W : ℤ) - 1) ∨ mapY = 32 ∨
            mapY = 32 * ((H : ℤ) - 1)) := fun hext =>
          hhit (hit_at_extreme m W H hbC hbR mapX mapY temp hx1 hx2 hy1 hy2 hext)
        obtain ⟨dX', hdX'1, hdX'32, hXeq, hXc1, hXc2⟩ :=
          calcNewDistance_eq mapX (by omega) rx Δx
        obtain ⟨dY', hdY'1, hdY'32, hYeq, hYc1, hYc2⟩ :=
          calcNewDistance_eq mapY (by omega) ry Δy
        rw [hXeq, hYeq]
        apply ih mapX mapY dX' dY' _
          (axis_restore hx1 hx2 hhiX (fun h => hnoext (Or.inl h))
            (fun h => hnoext (Or.inr (Or.inl h))) hdX'1 hdX'32 hXc1 hXc2)
          (axis_restore hy1 hy2 hhiY (fun h => hnoext (Or.inr (Or.inr (Or.inl h))))
            (fun h => hnoext (Or.inr (Or.inr (Or.inr h)))) hdY'1 hdY'32 hYc1 hYc2)
        rw [if_pos hstall] at hmeas
        rw [if_neg (show ¬(dX' = 0 ∨ dY' = 0) from by omega)]
        push_cast at hmeas ⊢
        omega
    · -- both next grid lines are at positive distance: real progress
      push_neg at hstall
      obtain ⟨hdxne, hdyne⟩ := hstall
      by_cases hch : |(dx : ℝ) / 32 * Δx| ≤ |(dy : ℝ) / 32 * Δy|
      · -- the X crossing is nearer: X advances exactly dx, Y by ky ≤ dy
        have hchoose : chooseAdjustment ((dx : ℝ) / 32 * Δx) ((dy : ℝ) / 32 * Δy) =
            (dx : ℝ) / 32 * Δx := by
          unfold chooseAdjustment
          rw [if_pos hch]
        obtain ⟨ky, hky0, hkyd, hmY⟩ := adjustmentFor_other hΔy0 hdy0 hch
        rw [hchoose, adjustmentFor_chosen hΔx0 hdx0, hmY]
        obtain ⟨⟨hbx1, hbx2⟩, hmeasX⟩ := axis_step hΔx.1 hΔx.2 hAx hdx0 (le_refl dx)
        obtain ⟨⟨hby1, hby2⟩, hmeasY⟩ := axis_step hΔy.1 hΔy.2 hAy hky0 hkyd
        by_cases hhit : (checkForHit
            ((↑(mapX + (if 0 < Δx then dx else -dx)) : ℝ) / 32)
            ((↑(mapY + (if 0 < Δy then ky else -ky)) : ℝ) / 32) temp m).1 = true
        · exact ⟨_, by rw [if_pos hhit]⟩
        · rw [if_neg hhit]
          have hnoext : ¬(mapX + (if 0 < Δx then dx else -dx) = 32 ∨
              mapX + (if 0 < Δx then dx else -dx) = 32 * ((W : ℤ) - 1) ∨
              mapY + (if 0 < Δy then ky else -ky) = 32 ∨
              mapY + (if 0 < Δy then ky else -ky) = 32 * ((H : ℤ) - 1)) := fun hext =>
            hhit (hit_at_extreme m W H hbC hbR _ _ temp hbx1 hbx2 hby1 hby2 hext)
          obtain ⟨dX', hdX'1, hdX'32, hXeq, hXc1, hXc2⟩ :=
            calcNewDistance_eq (mapX + (if 0 < Δx then dx else -dx)) (by omega) rx Δx
          obtain ⟨dY', hdY'1, hdY'32, hYeq, hYc1, hYc2⟩ :=
            calcNewDistance_eq (mapY + (if 0 < Δy then ky else -ky)) (by omega) ry Δy
          rw [hXeq, hYeq]
          apply ih _ _ dX' dY' _
            (axis_restore hbx1 hbx2 hhiX (fun h => hnoext (Or.inl h))
              (fun h => hnoext (Or.inr (Or.inl h))) hdX'1 hdX'32 hXc1 hXc2)
            (axis_restore hby1 hby2 hhiY (fun h => hnoext (Or.inr (Or.inr (Or.inl h))))
              (fun h => hnoext (Or.inr (Or.inr (Or.inr h)))) hdY'1 hdY'32 hYc1 hYc2)
          rw [if_neg (show ¬(dx = 0 ∨ dy = 0) from by omega)] at hmeas
          rw [if_neg (show ¬(dX' = 0 ∨ dY' = 0) from by omega), hmeasX, hmeasY]
          push_cast at hmeas ⊢
          omega
      · -- the Y crossing is nearer: Y advances exactly dy, X by kx ≤ dx
        have hchoose : chooseAdjustment ((dx : ℝ) / 32 * Δx) ((dy : ℝ) / 32 * Δy) =
            (dy : ℝ) / 32 * Δy := by
          unfold chooseAdjustment
          rw [if_neg hch]
        obtain ⟨kx, hkx0, hkxd, hmX⟩ :=
          adjustmentFor_other hΔx0 hdx0 (le_of_lt (not_le.mp hch))
        rw [hchoose, adjustmentFor_chosen hΔy0 hdy0, hmX]
        obtain ⟨⟨hbx1, hbx2⟩, hmeasX⟩ := axis_step hΔx.1 hΔx.2 hAx hkx0 hkxd
        obtain ⟨⟨hby1, hby2⟩, hmeasY⟩ := axis_step hΔy.1 hΔy.2 hAy hdy0 (le_refl dy)
        by_cases hhit : (checkForHit
            ((↑(mapX + (if 0 < Δx then kx else -kx)) : ℝ) / 32)
            ((↑(mapY + (if 0 < Δy then dy else -dy)) : ℝ) / 32) temp m).1 = true
        · exact ⟨_, by rw [if_pos hhit]⟩
        · rw [if_neg hhit]
          have hnoext : ¬(mapX + (if 0 < Δx then kx else -kx) = 32 ∨
              mapX + (if 0 < Δx then kx else -kx) = 32 * ((W : ℤ) - 1) ∨
              mapY + (if 0 < Δy then dy else -dy) = 32 ∨
              mapY + (if 0 < Δy then dy else -dy) = 32 * ((H : ℤ) - 1)) := fun hext =>
            hhit (hit_at_extreme m W H hbC hbR _ _ temp hbx1 hbx2 hby1 hby2 hext)
          obtain ⟨dX', hdX'1, hdX'32, hXeq, hXc1, hXc2⟩ :=
            calcNewDistance_eq (mapX + (if 0 < Δx then kx else -kx)) (by omega) rx Δx
          obtain ⟨dY', hdY'1, hdY'32, hYeq, hYc1, hYc2⟩ :=
            calcNewDistance_eq (mapY + (if 0 < Δy then dy else -dy)) (by omega) ry Δy
          rw [hXeq, hYeq]
          apply ih _ _ dX' dY' _
            (axis_restore hbx1 hbx2 hhiX (fun h => hnoext (Or.inl h))
              (fun h => hnoext (Or.inr (Or.inl h))) hdX'1 hdX'32 hXc1 hXc2)
            (axis_restore hby1 hby2 hhiY (fun h => hnoext (Or.inr (Or.inr (Or.inl h))))
              (fun h => hnoext (Or.inr (Or.inr (Or.inr h)))) hdY'1 hdY'32 hYc1 hYc2)
          rw [if_neg (show ¬(dx = 0 ∨ dy = 0) from by omega)] at hmeas
          rw [if_neg (show ¬(dX' = 0 ∨ dY' = 0) from by omega), hmeasX, hmeasY]
          push_cast at hmeas ⊢
          omega

lemma deltaDistSigned_sign {r hypo : ℝ} (hh : |r| ≤ hypo) :
    (0 ≤ r → 0 < deltaDistSigned r hypo) ∧ (r < 0 → deltaDistSigned r hypo < 0) := by
  constructor
  · intro hr
    unfold deltaDistSigned
    rw [if_neg (not_lt.mpr hr)]
    by_cases hz : r = 0
    · unfold deltaDistRaw
      rw [if_pos hz]
      norm_num
    · exact deltaDistRaw_pos hz hh
  · intro hr
    unfold deltaDistSigned
    rw [if_pos hr]
    have := deltaDistRaw_pos (ne_of_lt hr) hh
    nlinarith

lemma initialSideDist_eq (mapStart : ℤ) (h0 : 0 ≤ mapStart) (r Δ : ℝ) :
    ∃ d : ℤ, 0 ≤ d ∧ d ≤ 32 ∧
      initialSideDist mapStart r Δ = (d : ℝ) / 32 * Δ ∧
      (0 ≤ r → (mapStart + d) % 32 = 0 ∧ 1 ≤ d) ∧
      (r < 0 → (mapStart - d) % 32 = 0 ∧ d ≤ 31) := by
  have hm := Int.tmod_eq_emod h0 (by norm_num : (0 : ℤ) ≤ 32)
  have h1 : 0 ≤ mapStart.tmod 32 := tmod32_nonneg h0
  have h2 : mapStart.tmod 32 < 32 := tmod32_lt h0
  unfold initialSideDist
  by_cases hr : r < 0
  · rw [if_pos hr]
    exact ⟨mapStart.tmod 32, by omega, by omega, rfl,
      fun h => absurd hr (not_lt.mpr h), fun _ => ⟨by omega, by omega⟩⟩
  · rw [if_neg hr]
    exact ⟨32 - mapStart.tmod 32, by omega, by omega, rfl,
      fun _ => ⟨by omega, by omega⟩, fun h => absurd h hr⟩

/-- Starting strictly inside a non-border cell of a bordered grid, the
traversal loop (as entered by `castColumn`, for an arbitrary ray direction)
finds a hit within `32*(W+H)` iterations. -/
lemma castLoop_from_start
    (m : Grid) (W H : ℕ)
    (hbC : ∀ y : ℤ, 0 ≤ y → y < (H : ℤ) → cell m y 0 ≠ 0 ∧ cell m y ((W : ℤ) - 1) ≠ 0)
    (hbR : ∀ x : ℤ, 0 ≤ x → x < (W : ℤ) → cell m 0 x ≠ 0 ∧ cell m ((H : ℤ) - 1) x ≠ 0)
    (rx ry : ℝ) (mX0 mY0 : ℤ)
    (hx1 : 32 ≤ mX0) (hx2 : mX0 < 32 * ((W : ℤ) - 1))
    (hy1 : 32 ≤ mY0) (hy2 : mY0 < 32 * ((H : ℤ) - 1))
    (fuel : ℕ) (hfuel : 32 * (W + H) ≤ fuel) :
    ∃ out, castLoop m rx ry (deltaDistSigned rx (hypoLength rx ry))
        (deltaDistSigned ry (hypoLength rx ry)) fuel mX0 mY0
        (initialSideDist mX0 rx (deltaDistSigned rx (hypoLength rx ry)))
        (initialSideDist mY0 ry (deltaDistSigned ry (hypoLength rx ry))) {} =
      some out := by
  have hsx := deltaDistSigned_sign (abs_le_hypoLength_left rx ry)
  have hsy := deltaDistSigned_sign (abs_le_hypoLength_right rx ry)
  obtain ⟨dx0, hdx0, hdx32, hXeq, hXpos, hXneg⟩ :=
    initialSideDist_eq mX0 (by omega) rx (deltaDistSigned rx (hypoLength rx ry))
  obtain ⟨dy0, hdy0, hdy32, hYeq, hYpos, hYneg⟩ :=
    initialSideDist_eq mY0 (by omega) ry (deltaDistSigned ry (hypoLength rx ry))
  rw [hXeq, hYeq]
  apply castLoop_terminates m W H rx ry _ _ hbC hbR hsx hsy fuel mX0 mY0 dx0 dy0 {}
  · refine ⟨hdx0, hdx32, hx1, by omega, ?_, ?_⟩
    · intro hr
      obtain ⟨hc, hd1⟩ := hXpos hr
      exact ⟨hc, hd1, by omega⟩
    · intro hr
      obtain ⟨hc, hd31⟩ := hXneg hr
      exact ⟨hc, by omega⟩
  · refine ⟨hdy0, hdy32, hy1, by omega, ?_, ?_⟩
    · intro hr
      obtain ⟨hc, hd1⟩ := hYpos hr
      exact ⟨hc, hd1, by omega⟩
    · intro hr
      obtain ⟨hc, hd31⟩ := hYneg hr
      exact ⟨hc, by omega⟩
  · unfold axisMeasure
    have hW2 : (2 : ℤ) ≤ (W : ℤ) := by omega
    have hH2 : (2 : ℤ) ≤ (H : ℤ) := by omega
    have hfuel' : (32 : ℤ) * ((W : ℤ) + (H : ℤ)) ≤ (fuel : ℤ) := by
      exact_mod_cast hfuel
    split_ifs <;> omega

/-- C3: with a solid border around the viewpoint and the viewpoint's cell
strictly inside the border ring, every column's traversal loop terminates
(within `32*(W+H)` steps) with a valid hit — in particular also for rays
parallel to a grid axis (`rayDirX == 0` or `rayDirY == 0`), which cause no
division by zero. -/
theorem claim_C3 (c : Character) (m : Grid) (W H screenWidth i fuel : ℕ)
    (hbC : ∀ y : ℤ, 0 ≤ y → y < (H : ℤ) → cell m y 0 ≠ 0 ∧ cell m y ((W : ℤ) - 1) ≠ 0)
    (hbR : ∀ x : ℤ, 0 ≤ x → x < (W : ℤ) → cell m 0 x ≠ 0 ∧ cell m ((H : ℤ) - 1) x ≠ 0)
    (hx1 : 32 ≤ cppTrunc c.cx) (hx2 : cppTrunc c.cx < 32 * ((W : ℤ) - 1))
    (hy1 : 32 ≤ cppTrunc c.cy) (hy2 : cppTrunc c.cy < 32 * ((H : ℤ) - 1))
    (hfuel : 32 * (W + H) ≤ fuel) :
    ∃ hd mapX mapY, castColumn c m screenWidth i fuel = some (hd, mapX, mapY) ∧
      hd.color ≠ 0 ∧ 0 ≤ hd.distance := by
  obtain ⟨out, hout⟩ :=
    castLoop_from_start m W H hbC hbR
      (c.dirX + c.cameraPlaneX * (2 * (i : ℝ) / (screenWidth : ℝ) - 1))
      (c.dirY + c.cameraPlaneY * (2 * (i : ℝ) / (screenWidth : ℝ) - 1))
      (cppTrunc c.cx) (cppTrunc c.cy) hx1 hx2 hy1 hy2 fuel hfuel
  obtain ⟨t, mX, mY⟩ := out
  obtain ⟨hcol, -⟩ := castLoop_spec _ _ _ _ _ _ _ _ _ _ _ _ _ _ hout
  refine ⟨{ t with
      distance :=
        Real.sqrt ((c.cx - (mX : ℝ)) * (c.cx - (mX : ℝ)) +
          (c.cy - (mY : ℝ)) * (c.cy - (mY : ℝ))) },
    mX, mY, ?_, by simpa using hcol, Real.sqrt_nonneg _⟩
  simp only [castColumn]
  rw [hout]
  rfl

/-- Witness for C3: the scenario-A viewpoint inside the bordered 4×3 map,
with the `32*(W+H)` step budget. -/
theorem claim_C3_witness :
    (32 ≤ cppTrunc charA.cx ∧ cppTrunc charA.cx < 32 * ((4 : ℤ) - 1)) ∧
      ∃ hd mapX mapY, castColumn charA mapA 1 0 224 = some (hd, mapX, mapY) ∧
        hd.color ≠ 0 ∧ 0 ≤ hd.distance :=
  ⟨⟨by rw [show charA.cx = 80 from rfl, cppTrunc80]; norm_num,
    by rw [show charA.cx = 80 from rfl, cppTrunc80]; norm_num⟩,
    claim_C3 charA mapA 4 3 1 0 224
      (by
        intro y h1 h2
        interval_cases y <;> exact ⟨by decide, by decide⟩)
      (by
        intro x h1 h2
        interval_cases x <;> exact ⟨by decide, by decide⟩)
      (by rw [show charA.cx = 80 from rfl, cppTrunc80]; norm_num)
      (by rw [show charA.cx = 80 from rfl, cppTrunc80]; norm_num)
      (by rw [show charA.cy = 48 from rfl, cppTrunc48]; norm_num)
      (by rw [show charA.cy = 48 from rfl, cppTrunc48]; norm_num)
      (by norm_num)⟩

end RayCasting
